import Mathlib

/-!
avrtest: the LoRa radio driver of test07.c (receiver) and test08.c (transmitter).

The driver talks to an SX127x-class transceiver over the AVR SPI port.  The
embedding below keeps the microcontroller side as explicit state passing:

* the SPI data register `SPDR`, the reset and chip-select lines of port B and
  the UART data register are modelled as stores that append to a chronological
  trace (`bus` for the radio pins and the SPI bytes, `uart` for the diagnostic
  sink);
* the transceiver is an arbitrary byte-level SPI slave (`Slave`); two concrete
  slaves are given, a plain register file and a register file with the FIFO
  data port at 0x00 and write-1-to-clear interrupt flags at 0x12;
* `uint8_t` values are natural numbers reduced `% 256` where they are stored
  into an 8-bit register.

Busy-wait delays (`_delay_us`, `_delay_ms`) carry no state and are left out.
-/

namespace Avr

/-- Modelled from the spec: bit number of port B pin 0, `PB0` of `avr/io.h`
(the header is not among the sources); the sources wire the radio reset to it. -/
def PB0 : Nat := 0

/-- Modelled from the spec: bit number of port B pin 1, `PB1` of `avr/io.h`; the
sources wire the DIO0 output of the radio to it. -/
def PB1 : Nat := 1

/-- Modelled from the spec: bit number of port B pin 2, `PB2` of `avr/io.h`; the
sources wire the chip select (NSS) of the radio to it. -/
def PB2 : Nat := 2

/-- What the radio sees on its pins, in chronological order: the level driven on
the reset line, the level driven on the chip-select line (NSS, active low), and
one SPI byte exchange (`mosi` sent by the AVR, `miso` shifted back). -/
inductive BusEvent where
  | rst (level : Bool)
  | nss (level : Bool)
  | xfer (mosi miso : Nat)
  deriving DecidableEq, Repr

/-- A byte-level SPI slave with internal state `σ`. -/
structure Slave (σ : Type) where
  reset : σ → σ
  select : σ → σ
  exchange : σ → Nat → σ × Nat
  deselect : σ → σ

/-- The part of the machine state the driver touches. -/
structure Mcu (σ : Type) where
  chip : σ
  SPDR : Nat
  bus : List BusEvent
  uart : List Nat

/-- The statements `PORTB &= ~LORA_RST` (level false) and `PORTB |= LORA_RST`
(level true): the reset line is driven; a low level resets the slave. -/
def drive_RST {σ : Type} (dev : Slave σ) (level : Bool) (s : Mcu σ) : Mcu σ :=
  { s with chip := if level then s.chip else dev.reset s.chip,
           bus := s.bus ++ [BusEvent.rst level] }

/-- The statements `PORTB &= ~LORA_NSS` (level false) and `PORTB |= LORA_NSS`
(level true): the chip-select line is driven. -/
def drive_NSS {σ : Type} (dev : Slave σ) (level : Bool) (s : Mcu σ) : Mcu σ :=
  { s with chip := if level then dev.deselect s.chip else dev.select s.chip,
           bus := s.bus ++ [BusEvent.nss level] }

/-- The statement `SPDR = b;`: in master mode the store starts an 8-bit exchange;
the byte shifted back is what a later read of `SPDR` returns. -/
def store_SPDR {σ : Type} (dev : Slave σ) (b : Nat) (s : Mcu σ) : Mcu σ :=
  let r := dev.exchange s.chip (b % 256)
  { s with chip := r.1, SPDR := r.2 % 256,
           bus := s.bus ++ [BusEvent.xfer (b % 256) (r.2 % 256)] }

/-- The statement `UDR0 = b;`: one byte goes to the diagnostic sink. -/
def store_UDR0 {σ : Type} (b : Nat) (s : Mcu σ) : Mcu σ :=
  { s with uart := s.uart ++ [b % 256] }

/-! ## Reading the pin trace as register accesses -/

/-- One register-level operation seen on the bus. -/
inductive RegOp where
  | reset
  | read (reg : Nat) (vals : List Nat)
  | write (reg : Nat) (vals : List Nat)
  deriving DecidableEq, Repr

/-- A finished chip-select frame: the first byte is the address byte, whose high
bit selects write (1) or read (0); the data of a write are the bytes sent, the
data of a read are the bytes shifted back. -/
def frameOp : List (Nat × Nat) → List RegOp
  | [] => []
  | (a, _) :: ds =>
    if a < 0x80 then [RegOp.read a (ds.map Prod.snd)]
    else [RegOp.write (a - 0x80) (ds.map Prod.fst)]

/-- Decoder of the pin trace; `cur` holds the bytes of the frame that is open. -/
def decode : Option (List (Nat × Nat)) → List BusEvent → List RegOp
  | _, [] => []
  | _, BusEvent.rst false :: es => RegOp.reset :: decode none es
  | cur, BusEvent.rst true :: es => decode cur es
  | _, BusEvent.nss false :: es => decode (some []) es
  | some f, BusEvent.nss true :: es => frameOp f ++ decode none es
  | none, BusEvent.nss true :: es => decode none es
  | some f, BusEvent.xfer a b :: es => decode (some (f ++ [(a, b)])) es
  | none, BusEvent.xfer _ _ :: es => decode none es

/-- The register operations of a pin trace. -/
def regOps (t : List BusEvent) : List RegOp := decode none t

/-- The register writes of a list of operations, as (register, bytes). -/
def writesOf : List RegOp → List (Nat × List Nat)
  | [] => []
  | RegOp.write r vs :: ops => (r, vs) :: writesOf ops
  | _ :: ops => writesOf ops

/-! ## Two slaves -/

/-- Position of a slave inside a chip-select frame. -/
inductive Phase where
  | idle
  | addr
  | data (wnr : Bool) (reg : Nat)
  deriving DecidableEq, Repr

/-- Register array update. -/
def setReg (regs : Nat → Nat) (a v : Nat) : Nat → Nat :=
  fun x => if x = a then v else regs x

/-- A plain register file: a write stores the value and a read returns it. -/
structure RegFile where
  regs : Nat → Nat
  phase : Phase

/-- The plain register file as an SPI slave; `defaults` is what a reset loads. -/
def regFileDev (defaults : Nat → Nat) : Slave RegFile where
  reset := fun _ => { regs := defaults, phase := Phase.idle }
  select := fun c => { c with phase := Phase.addr }
  deselect := fun c => { c with phase := Phase.idle }
  exchange := fun c b =>
    match c.phase with
    | Phase.idle => (c, 0)
    | Phase.addr => ({ c with phase := Phase.data (decide (0x80 ≤ b)) (b % 0x80) }, 0)
    | Phase.data true r => ({ c with regs := setReg c.regs r b }, 0)
    | Phase.data false r => (c, c.regs r)

end Avr

/-! ## test07.c: the receiver -/

namespace Test07
open Avr

def LORA_RST : Nat := 1 <<< PB0
def LORA_RX_DONE : Nat := 1 <<< PB1
def LORA_NSS : Nat := 1 <<< PB2

def spi_chip_enable {σ : Type} (dev : Slave σ) (s : Mcu σ) : Mcu σ :=
  drive_NSS dev false s

def spi_chip_disable {σ : Type} (dev : Slave σ) (s : Mcu σ) : Mcu σ :=
  drive_NSS dev true s

/-- The wait `while(!(SPSR & (1 << SPIF)));`: in master mode the exchange
started by the store to `SPDR` completes after eight clocks; nothing of the
modelled state changes while waiting. -/
def spi_wait_write {σ : Type} (s : Mcu σ) : Mcu σ := s

def uart_tx {σ : Type} (data : Nat) (s : Mcu σ) : Mcu σ :=
  store_UDR0 data s

/-- A C string is the list of its bytes; the loop stops at the first 0 byte or
at the end of the literal (where the terminating 0 sits). -/
def p_str {σ : Type} : List Nat → Mcu σ → Mcu σ
  | [], s => s
  | c :: cs, s => if c = 0 then s else p_str cs (uart_tx c s)

def lora_reset {σ : Type} (dev : Slave σ) (s : Mcu σ) : Mcu σ :=
  drive_RST dev true (drive_RST dev false s)

def lora_read_reg {σ : Type} (dev : Slave σ) (reg : Nat) (s : Mcu σ) : Mcu σ × Nat :=
  let s := spi_chip_enable dev s
  let s := store_SPDR dev reg s
  let s := spi_wait_write s
  let s := store_SPDR dev 0 s
  let s := spi_wait_write s
  let s := spi_chip_disable dev s
  (s, s.SPDR)

def lora_write_reg {σ : Type} (dev : Slave σ) (reg val : Nat) (s : Mcu σ) : Mcu σ :=
  let s := spi_chip_enable dev s
  let s := store_SPDR dev (reg ||| 0x80) s
  let s := spi_wait_write s
  let s := store_SPDR dev val s
  let s := spi_wait_write s
  spi_chip_disable dev s

def lora_update_reg {σ : Type} (dev : Slave σ) (reg mask val : Nat) (s : Mcu σ) : Mcu σ :=
  let r := lora_read_reg dev reg s
  lora_write_reg dev reg (val ||| (mask &&& r.2)) r.1


def hex_chars : List Nat :=
  [0x30, 0x31, 0x32, 0x33, 0x34, 0x35, 0x36, 0x37, 0x38, 0x39,
   0x41, 0x42, 0x43, 0x44, 0x45, 0x46]

/-- The literals are "REG 0x" and "=0x". -/
def lora_print_reg {σ : Type} (dev : Slave σ) (reg : Nat) (s : Mcu σ) : Mcu σ :=
  let r := lora_read_reg dev reg s
  let val := r.2
  let s := p_str [0x52, 0x45, 0x47, 0x20, 0x30, 0x78] r.1
  let s := uart_tx (hex_chars.getD ((reg &&& 0xF0) >>> 4) 0) s
  let s := uart_tx (hex_chars.getD (reg &&& 0x0F) 0) s
  let s := p_str [0x3D, 0x30, 0x78] s
  let s := uart_tx (hex_chars.getD ((val &&& 0xF0) >>> 4) 0) s
  let s := uart_tx (hex_chars.getD (val &&& 0x0F) 0) s
  let s := uart_tx 0x0D s
  uart_tx 0x0A s

def lora_set_sleep_mode {σ : Type} (dev : Slave σ) (s : Mcu σ) : Mcu σ :=
  lora_update_reg dev 0x01 0xF8 0x00 s

def lora_set_lora_mode {σ : Type} (dev : Slave σ) (s : Mcu σ) : Mcu σ :=
  lora_update_reg dev 0x01 0x7F 0x80 s

def lora_set_explicit_header {σ : Type} (dev : Slave σ) (s : Mcu σ) : Mcu σ :=
  lora_update_reg dev 0x1D 0xFE 0x00 s

def lora_set_error_crc_cr8 {σ : Type} (dev : Slave σ) (s : Mcu σ) : Mcu σ :=
  lora_update_reg dev 0x1D 0xF1 (4 <<< 1) s

def lora_set_bandwidth_62_5 {σ : Type} (dev : Slave σ) (s : Mcu σ) : Mcu σ :=
  lora_update_reg dev 0x1D 0x0F (6 <<< 4) s

def lora_set_sf_12 {σ : Type} (dev : Slave σ) (s : Mcu σ) : Mcu σ :=
  lora_update_reg dev 0x1E 0x0F (12 <<< 4) s

def lora_set_crc_off {σ : Type} (dev : Slave σ) (s : Mcu σ) : Mcu σ :=
  lora_update_reg dev 0x1E 0xFB 0x00 s

def lora_set_ocp_off {σ : Type} (dev : Slave σ) (s : Mcu σ) : Mcu σ :=
  lora_update_reg dev 0x0B 0b11011111 0x00 s

def lora_set_max_tx_power_20dbm {σ : Type} (dev : Slave σ) (s : Mcu σ) : Mcu σ :=
  lora_write_reg dev 0x4D 0x87 s

def lora_set_pa_boost_20dbm {σ : Type} (dev : Slave σ) (s : Mcu σ) : Mcu σ :=
  lora_write_reg dev 0x09 (0xF0 ||| (20 - 2)) s

def lora_set_syncword_0x12 {σ : Type} (dev : Slave σ) (s : Mcu σ) : Mcu σ :=
  lora_write_reg dev 0x39 0x12 s

def lora_set_preample_len_6 {σ : Type} (dev : Slave σ) (s : Mcu σ) : Mcu σ :=
  let s := lora_write_reg dev 0x20 0x00 s
  lora_write_reg dev 0x21 0x06 s

def lora_set_agc_on {σ : Type} (dev : Slave σ) (s : Mcu σ) : Mcu σ :=
  lora_write_reg dev 0x26 0b100 s

def lora_set_lna_gain_highest {σ : Type} (dev : Slave σ) (s : Mcu σ) : Mcu σ :=
  lora_write_reg dev 0x0C 0b100000 s

def lora_reset_tx_base_address {σ : Type} (dev : Slave σ) (s : Mcu σ) : Mcu σ :=
  lora_write_reg dev 0x0E 0x00 s

def lora_reset_rx_base_address {σ : Type} (dev : Slave σ) (s : Mcu σ) : Mcu σ :=
  lora_write_reg dev 0x0F 0x00 s

def lora_set_detection_optimize_for_sf_7to12 {σ : Type} (dev : Slave σ) (s : Mcu σ) : Mcu σ :=
  lora_write_reg dev 0x31 0xC3 s

def lora_set_detection_threshold_for_sf_7to12 {σ : Type} (dev : Slave σ) (s : Mcu σ) : Mcu σ :=
  lora_write_reg dev 0x37 0x0A s

def lora_set_freq_434800000 {σ : Type} (dev : Slave σ) (s : Mcu σ) : Mcu σ :=
  let s := lora_write_reg dev 0x06 0x6C s
  let s := lora_write_reg dev 0x07 0xB3 s
  lora_write_reg dev 0x08 0x34 s

def lora_set_low_data_optimize_on {σ : Type} (dev : Slave σ) (s : Mcu σ) : Mcu σ :=
  lora_update_reg dev 0x26 0xF7 (0x01 <<< 3) s

def lora_set_standby_mode {σ : Type} (dev : Slave σ) (s : Mcu σ) : Mcu σ :=
  lora_update_reg dev 0x01 0b11111000 0b001 s

def lora_map_rx_to_dio0 {σ : Type} (dev : Slave σ) (s : Mcu σ) : Mcu σ :=
  lora_write_reg dev 0x40 (0 <<< 6) s

def lora_set_rx_cont_mode {σ : Type} (dev : Slave σ) (s : Mcu σ) : Mcu σ :=
  lora_update_reg dev 0x01 0b11111000 0b101 s

def lora_init {σ : Type} (dev : Slave σ) (s : Mcu σ) : Mcu σ :=
  let s := lora_reset dev s
  let s := lora_print_reg dev 0x42 s
  let s := lora_set_sleep_mode dev s
  let s := lora_set_lora_mode dev s
  let s := lora_set_explicit_header dev s
  let s := lora_set_error_crc_cr8 dev s
  let s := lora_set_bandwidth_62_5 dev s
  let s := lora_set_sf_12 dev s
  let s := lora_set_crc_off dev s
  let s := lora_set_ocp_off dev s
  let s := lora_set_max_tx_power_20dbm dev s
  let s := lora_set_pa_boost_20dbm dev s
  let s := lora_set_syncword_0x12 dev s
  let s := lora_set_preample_len_6 dev s
  let s := lora_set_agc_on dev s
  let s := lora_set_lna_gain_highest dev s
  let s := lora_reset_tx_base_address dev s
  let s := lora_reset_rx_base_address dev s
  let s := lora_set_detection_optimize_for_sf_7to12 dev s
  let s := lora_set_detection_threshold_for_sf_7to12 dev s
  let s := lora_set_freq_434800000 dev s
  let s := lora_set_low_data_optimize_on dev s
  let s := lora_set_standby_mode dev s
  let s := lora_map_rx_to_dio0 dev s
  lora_set_rx_cont_mode dev s

def lora_reset_irq_flags {σ : Type} (dev : Slave σ) (s : Mcu σ) : Mcu σ :=
  lora_write_reg dev 0x12 0xFF s

def lora_get_rx_data_len {σ : Type} (dev : Slave σ) (s : Mcu σ) : Mcu σ × Nat :=
  lora_read_reg dev 0x13 s

def lora_get_rx_data_address {σ : Type} (dev : Slave σ) (s : Mcu σ) : Mcu σ × Nat :=
  lora_read_reg dev 0x10 s

def lora_set_fifo_buffer_address {σ : Type} (dev : Slave σ) (address : Nat) (s : Mcu σ) :
    Mcu σ :=
  lora_write_reg dev 0x0D address s

/-- The loop `while(nbytes --) { SPDR = 0; spi_wait_write(); uart_tx(SPDR); }`. -/
def lora_read_rx_data_loop {σ : Type} (dev : Slave σ) : Nat → Mcu σ → Mcu σ
  | 0, s => s
  | nbytes + 1, s =>
    let s := store_SPDR dev 0 s
    let s := spi_wait_write s
    let s := uart_tx s.SPDR s
    lora_read_rx_data_loop dev nbytes s

def lora_read_rx_data {σ : Type} (dev : Slave σ) (s : Mcu σ) : Mcu σ :=
  let r := lora_get_rx_data_address dev s
  let s := lora_set_fifo_buffer_address dev r.2 r.1
  let r := lora_get_rx_data_len dev s
  let nbytes := r.2
  let s := spi_chip_enable dev r.1
  let s := store_SPDR dev 0x00 s
  let s := spi_wait_write s
  let s := lora_read_rx_data_loop dev nbytes s
  let s := spi_chip_disable dev s
  let s := lora_reset_irq_flags dev s
  let s := uart_tx 0x0D s
  uart_tx 0x0A s

/-- Returns `!!(0b1000000 & lora_read_reg(0x12))`. -/
def lora_check_rx_done {σ : Type} (dev : Slave σ) (s : Mcu σ) : Mcu σ × Nat :=
  let r := lora_read_reg dev 0x12 s
  (r.1, if 0b1000000 &&& r.2 = 0 then 0 else 1)

def lora_check_rx_done_and_read {σ : Type} (dev : Slave σ) (s : Mcu σ) : Mcu σ :=
  let r := lora_check_rx_done dev s
  if r.2 = 0 then r.1 else lora_read_rx_data dev r.1

/-- The handler `ISR(PCINT0_vect)`; `PINB` is the port B input it samples. -/
def ISR_PCINT0_vect {σ : Type} (dev : Slave σ) (PINB : Nat) (s : Mcu σ) : Mcu σ :=
  if PINB &&& LORA_RX_DONE = 0 then s else lora_check_rx_done_and_read dev s

/-- One pin-change interrupt as the environment supplies it: what the radio did
on its own since the last bus operation, and the port B input that the handler
samples. -/
structure Irq (σ : Type) where
  evolve : σ → σ
  PINB : Nat

/-- The handler run once for each interrupt of a list, in order. -/
def handle_irqs {σ : Type} (dev : Slave σ) : List (Irq σ) → Mcu σ → Mcu σ
  | [], s => s
  | q :: qs, s =>
    handle_irqs dev qs (ISR_PCINT0_vect dev q.PINB { s with chip := q.evolve s.chip })

/-- The radio side of `main`: `lora_init()`, then the loop
`while(1) { sys_wait_event(); led_on(); _delay_ms(20); led_off(); }`, which
touches the radio only through the pin-change interrupts that wake it; the
state after the given interrupts have been handled. -/
def main {σ : Type} (dev : Slave σ) (irqs : List (Irq σ)) (s : Mcu σ) : Mcu σ :=
  handle_irqs dev irqs (lora_init dev s)

end Test07

/-! ## test08.c: the periodic transmitter -/

namespace Test08
open Avr

def LORA_RST : Nat := 1 <<< PB0
def LORA_RX_TX_DONE : Nat := 1 <<< PB1
def LORA_TX_DONE : Nat := 1 <<< PB1
def LORA_NSS : Nat := 1 <<< PB2

def spi_chip_enable {σ : Type} (dev : Slave σ) (s : Mcu σ) : Mcu σ :=
  drive_NSS dev false s

def spi_chip_disable {σ : Type} (dev : Slave σ) (s : Mcu σ) : Mcu σ :=
  drive_NSS dev true s

/-- The wait `while(!(SPSR & (1 << SPIF)));`, as in the receiver. -/
def spi_wait_write {σ : Type} (s : Mcu σ) : Mcu σ := s

def uart_tx {σ : Type} (data : Nat) (s : Mcu σ) : Mcu σ :=
  store_UDR0 data s

/-- The loop of `p_str` over the bytes of a C string. -/
def p_str_loop {σ : Type} : List Nat → Mcu σ → Mcu σ
  | [], s => s
  | c :: cs, s => if c = 0 then s else p_str_loop cs (uart_tx c s)

/-- A null pointer is `none`. -/
def p_str {σ : Type} (str : Option (List Nat)) (s : Mcu σ) : Mcu σ :=
  match str with
  | none => s
  | some cs => p_str_loop cs s

def p_line {σ : Type} (pp : Option (List Nat)) (s : Mcu σ) : Mcu σ :=
  let s := p_str pp s
  p_str (some [0x0D, 0x0A]) s

def lora_reset_pin {σ : Type} (dev : Slave σ) (s : Mcu σ) : Mcu σ :=
  drive_RST dev true (drive_RST dev false s)

def lora_read_reg {σ : Type} (dev : Slave σ) (reg : Nat) (s : Mcu σ) : Mcu σ × Nat :=
  let s := spi_chip_enable dev s
  let s := store_SPDR dev reg s
  let s := spi_wait_write s
  let s := store_SPDR dev 0 s
  let s := spi_wait_write s
  let s := spi_chip_disable dev s
  (s, s.SPDR)

def lora_write_reg {σ : Type} (dev : Slave σ) (reg val : Nat) (s : Mcu σ) : Mcu σ :=
  let s := spi_chip_enable dev s
  let s := store_SPDR dev (reg ||| 0x80) s
  let s := spi_wait_write s
  let s := store_SPDR dev val s
  let s := spi_wait_write s
  spi_chip_disable dev s

def hex_chars : List Nat :=
  [0x30, 0x31, 0x32, 0x33, 0x34, 0x35, 0x36, 0x37, 0x38, 0x39,
   0x41, 0x42, 0x43, 0x44, 0x45, 0x46]

/-- The literal is "0x". -/
def p_hex_digit {σ : Type} (val : Nat) (s : Mcu σ) : Mcu σ :=
  let s := p_str (some [0x30, 0x78]) s
  let s := uart_tx (hex_chars.getD ((val &&& 0xF0) >>> 4) 0) s
  uart_tx (hex_chars.getD (val &&& 0x0F) 0) s

/-- The loop `while(i > 0b00001000) { uart_tx(val & i ? '1' : '0'); i >>= 1; }` of
`p_binary`; `fuel` bounds the number of evaluations of the condition, `none`
when it runs out.  Returns the state and the final `i`. -/
def p_binary_high {σ : Type} (val : Nat) : Nat → Nat → Mcu σ → Option (Mcu σ × Nat)
  | 0, _, _ => none
  | fuel + 1, i, s =>
    if i > 0b00001000 then
      p_binary_high val fuel (i >>> 1) (uart_tx (if val &&& i ≠ 0 then 0x31 else 0x30) s)
    else some (s, i)

/-- The loop `while(i) { uart_tx(val & i ? '1' : '0'); i >>= 1; }` of `p_binary`,
with the same fuel convention. -/
def p_binary_low {σ : Type} (val : Nat) : Nat → Nat → Mcu σ → Option (Mcu σ)
  | 0, _, _ => none
  | fuel + 1, i, s =>
    if i ≠ 0 then
      p_binary_low val fuel (i >>> 1) (uart_tx (if val &&& i ≠ 0 then 0x31 else 0x30) s)
    else some s

/-- The function `p_binary`; `i` is a `uint8_t`, so each loop evaluates its
condition at most nine times. -/
def p_binary {σ : Type} (val : Nat) (s : Mcu σ) : Option (Mcu σ) :=
  match p_binary_high val 9 0b10000000 s with
  | none => none
  | some r =>
    let s := uart_tx 0x20 r.1
    p_binary_low val 9 r.2 s

/-- The literals are ": ", " = " and "\r\n". -/
def lora_print_reg {σ : Type} (dev : Slave σ) (reg : Nat) (s : Mcu σ) : Option (Mcu σ) :=
  let r := lora_read_reg dev reg s
  let val := r.2
  let s := p_hex_digit reg r.1
  let s := p_str (some [0x3A, 0x20]) s
  let s := p_hex_digit val s
  let s := p_str (some [0x20, 0x3D, 0x20]) s
  match p_binary val s with
  | none => none
  | some s => some (p_str (some [0x0D, 0x0A]) s)

def lora_set_sleep_mode {σ : Type} (dev : Slave σ) (s : Mcu σ) : Mcu σ :=
  lora_write_reg dev 0x01 0b10001000 s

def lora_reset_irq {σ : Type} (dev : Slave σ) (s : Mcu σ) : Mcu σ :=
  lora_write_reg dev 0x12 0xFF s

/-- The table `lora_tx_init_blob`; 0x4C is the payload byte 'L'. -/
def lora_tx_init_blob : List Nat :=
  [ 0x01, 0b10001000
  , 0x06, 0x6C
  , 0x07, 0xB3
  , 0x08, 0x34
  , 0x0B, 0b00001011
  , 0x0E, 0x00
  , 0x00, 0x4C
  , 0x1D, 0b00100011
  , 0x1E, 0b11000100
  , 0x20, 0x00
  , 0x21, 0x06
  , 0x22, 0x01
  , 0x26, 0b00001100
  , 0x31, 0xC3
  , 0x37, 0x0A
  , 0x39, 0x12
  , 0x40, 0b01000000
  , 0x4D, 0b10000111
  , 0x09, 0b11111111
  , 0x01, 0b10001011
  , 0xFF, 0xFF ]

/-- The (address, value) entries of a blob that precede the first entry whose
address byte is the sentinel 0xFF. -/
def tableEntries : List Nat → List (Nat × Nat)
  | a :: v :: rest => if a = 0xFF then [] else (a, v) :: tableEntries rest
  | _ => []

/-- The bytes of a table of (address, value) entries. -/
def blobOf : List (Nat × Nat) → List Nat
  | [] => []
  | e :: es => e.1 :: e.2 :: blobOf es

/-- The loop `while(0xFF != *pp) { lora_write_reg(pp[0], pp[1]); pp+=2; }` over
what is left of the blob from `pp` on; reading past the end of the array gives
`none`. -/
def lora_init_tx_loop {σ : Type} (dev : Slave σ) : List Nat → Mcu σ → Option (Mcu σ)
  | [], _ => none
  | [a], s => if a = 0xFF then some s else none
  | a :: v :: rest, s =>
    if a = 0xFF then some s else lora_init_tx_loop dev rest (lora_write_reg dev a v s)

def lora_init_tx {σ : Type} (dev : Slave σ) (s : Mcu σ) : Option (Mcu σ) :=
  let s := lora_reset_pin dev s
  lora_init_tx_loop dev lora_tx_init_blob s

/-- Returns `!!(0b0001000 & lora_read_reg(0x12))`. -/
def lora_check_tx_done {σ : Type} (dev : Slave σ) (s : Mcu σ) : Mcu σ × Nat :=
  let r := lora_read_reg dev 0x12 s
  (r.1, if 0b0001000 &&& r.2 = 0 then 0 else 1)

/-- What the environment supplies at one evaluation of the loop condition of
`f_tx`: what the radio did on its own since the last bus operation, and the
port B input that the condition samples. -/
structure Wake (σ : Type) where
  evolve : σ → σ
  PINB : Nat

/-- The instruction `sleep_cpu()`: returns at the next interrupt. -/
def sleep_cpu {σ : Type} (s : Mcu σ) : Mcu σ := s

/-- The loop
`while(!(PINB & LORA_RX_TX_DONE) || !lora_check_tx_done()) { p_line("TX Check"); sleep_cpu(); }`
over the list of condition evaluations the environment allows; `none` when the
loop is still waiting after all of them. -/
def f_tx_wait {σ : Type} (dev : Slave σ) : List (Wake σ) → Mcu σ → Option (Mcu σ)
  | [], _ => none
  | w :: ws, s =>
    let s := { s with chip := w.evolve s.chip }
    if w.PINB &&& LORA_RX_TX_DONE = 0 then
      f_tx_wait dev ws (sleep_cpu (p_line (some [0x54, 0x58, 0x20, 0x43, 0x68, 0x65, 0x63, 0x6B]) s))
    else
      let r := lora_check_tx_done dev s
      if r.2 = 0 then
        f_tx_wait dev ws
          (sleep_cpu (p_line (some [0x54, 0x58, 0x20, 0x43, 0x68, 0x65, 0x63, 0x6B]) r.1))
      else some r.1

/-- The part of `f_tx` up to the end of the wait loop. -/
def f_tx_until_done {σ : Type} (dev : Slave σ) (wakes : List (Wake σ)) (s : Mcu σ) :
    Option (Mcu σ) :=
  match lora_init_tx dev s with
  | none => none
  | some s => f_tx_wait dev wakes (p_line (some [0x54, 0x58]) s)

/-- The literals are "TX", "TX Check" and "TX Done". -/
def f_tx {σ : Type} (dev : Slave σ) (wakes : List (Wake σ)) (s : Mcu σ) : Option (Mcu σ) :=
  match f_tx_until_done dev wakes s with
  | none => none
  | some s =>
    let s := p_line (some [0x54, 0x58, 0x20, 0x44, 0x6F, 0x6E, 0x65]) s
    let s := lora_reset_irq dev s
    some (lora_set_sleep_mode dev s)

end Test08

/-! ## test06.c: the seconds counter -/

namespace Test06

/-- The buffer `val`: seven characters '0' and the terminating 0 byte. -/
def val : List Nat := [0x30, 0x30, 0x30, 0x30, 0x30, 0x30, 0x30, 0]

/-- The value of `sizeof(val)`. -/
def sizeof_val : Nat := 8

/-- The loop `while(*p) { *p ++ = '0'; }` of `reset_val` over what is left of the
buffer from `p` on. -/
def reset_val_loop : List Nat → List Nat
  | [] => []
  | c :: cs => if c = 0 then c :: cs else 0x30 :: reset_val_loop cs

/-- The buffer after `reset_val` (the store `TCNT2 = 0` does not touch it). -/
def reset_val (v : List Nat) : List Nat := reset_val_loop v

/-- The comparison `'9' >= c` for a `char` holding the byte `c`; whether `char`
is signed is a compiler setting not fixed by the sources, so it is a parameter:
a signed `char` with the high bit set is negative. -/
def char_le_9 (signed : Bool) (c : Nat) : Bool :=
  decide (c ≤ 0x39) || (signed && decide (128 ≤ c))

/-- The loop of `update_val`,
`while(p >= val) { if('9' >= ++(*p)) break; *p -- = '0'; }`, with `p = val + k - 1`:
it ends when `p` has moved below `val` (`k = 0`). -/
def update_val_loop (signed : Bool) : Nat → List Nat → List Nat
  | 0, v => v
  | k + 1, v =>
    let v := v.set k ((v.getD k 0 + 1) % 256)
    if char_le_9 signed (v.getD k 0) then v
    else update_val_loop signed k (v.set k 0x30)

/-- The buffer after `update_val`; `p` starts at `val + sizeof(val) - 2`. -/
def update_val (signed : Bool) (v : List Nat) : List Nat :=
  update_val_loop signed (sizeof_val - 2 + 1) v

/-- The zero-padded decimal representation of `n` in `k` ASCII digits, most
significant digit first. -/
def toDigits : Nat → Nat → List Nat
  | 0, _ => []
  | k + 1, n => toDigits k (n / 10) ++ [0x30 + n % 10]

/-- The number written by a list of ASCII decimal digits, most significant
first. -/
def digitsVal (cs : List Nat) : Nat := cs.foldl (fun acc c => 10 * acc + (c - 0x30)) 0

end Test06

namespace Avr

/-- The transceiver as far as the driver depends on it: a register file whose
address 0x00 is the data port of the packet buffer (each access uses the byte at
the address pointer, register 0x0D, and advances the pointer) and whose
interrupt flags, register 0x12, are cleared by writing ones. -/
structure Sx where
  regs : Nat → Nat
  fifo : Nat → Nat
  phase : Phase

/-- The transceiver as an SPI slave; `defaults` is what a reset loads. -/
def sxDev (defaults : Nat → Nat) : Slave Sx where
  reset := fun c => { c with regs := defaults, phase := Phase.idle }
  select := fun c => { c with phase := Phase.addr }
  deselect := fun c => { c with phase := Phase.idle }
  exchange := fun c b =>
    match c.phase with
    | Phase.idle => (c, 0)
    | Phase.addr => ({ c with phase := Phase.data (decide (0x80 ≤ b)) (b % 0x80) }, 0)
    | Phase.data true r =>
      if r = 0x00 then
        ({ c with fifo := setReg c.fifo (c.regs 0x0D % 256) b,
                  regs := setReg c.regs 0x0D ((c.regs 0x0D + 1) % 256) }, 0)
      else if r = 0x12 then
        ({ c with regs := setReg c.regs 0x12 (c.regs 0x12 &&& (0xFF ^^^ b)) }, 0)
      else ({ c with regs := setReg c.regs r b }, 0)
    | Phase.data false r =>
      if r = 0x00 then
        ({ c with regs := setReg c.regs 0x0D ((c.regs 0x0D + 1) % 256) },
          c.fifo (c.regs 0x0D % 256))
      else (c, c.regs r)

/-- The bytes a slave shifts back while `n` zero bytes are sent to it. -/
def burstBytes {σ : Type} (dev : Slave σ) : Nat → σ → List Nat
  | 0, _ => []
  | n + 1, c => ((dev.exchange c 0).2 % 256) :: burstBytes dev n (dev.exchange c 0).1

/-- The slave state after `n` zero bytes were sent to it. -/
def burstChip {σ : Type} (dev : Slave σ) : Nat → σ → σ
  | 0, c => c
  | n + 1, c => burstChip dev n (dev.exchange c 0).1

/-- The crystal frequency in Hz (the `32e6` of the frequency comment in test08.c). -/
def Fcrystal : Nat := 32000000

/-- The carrier frequency in Hz encoded by the three frequency registers,
`Frf = Fosc * reg_value / 2 ^ 19` (comment of `lora_set_freq_434800000`). -/
def carrierHz (msb mid lsb : Nat) : ℚ :=
  (Fcrystal : ℚ) * (((msb <<< 16) ||| (mid <<< 8) ||| lsb : Nat) : ℚ) / 2 ^ 19

/-- Whether a register write goes to one of the frequency registers 0x06..0x08. -/
def isFreqWrite (w : Nat × List Nat) : Bool :=
  w.1 == 0x06 || w.1 == 0x07 || w.1 == 0x08

/-- A transceiver outside a frame that has received the one-byte packet 'L':
receive-done flag set, packet at buffer address 0, length 1. -/
def sxPacketL : Sx :=
  { regs := fun r => if r = 0x12 then 0x40 else if r = 0x13 then 1 else 0,
    fifo := fun _ => 0x4C,
    phase := Phase.idle }

/-- A transceiver with all registers and the packet buffer zero, outside a frame. -/
def sx0 : Sx := { regs := fun _ => 0, fifo := fun _ => 0, phase := Phase.idle }

/-- Three evaluations of the wait condition of `f_tx`: the pin still low; the pin
high while the flags are still clear; the transmit-done flag raised by the
radio and the pin high. -/
def txWakes : List (Test08.Wake Sx) :=
  [ { evolve := fun c => c, PINB := 0 },
    { evolve := fun c => c, PINB := 2 },
    { evolve := fun c => { c with regs := setReg c.regs 0x12 0x08 }, PINB := 2 } ]

/-- A write to the mode register 0x01 whose low three bits are 000 (Sleep). -/
def isSleepWrite (w : Nat × List Nat) : Bool :=
  match w with
  | (r, [v]) => r == 0x01 && v % 8 == 0
  | _ => false

/-- A write to the mode register 0x01 that sets bit 7, the LoRa-mode bit. -/
def setsLoRaBit (w : Nat × List Nat) : Bool :=
  match w with
  | (r, [v]) => r == 0x01 && Nat.testBit v 7
  | _ => false

/-- Some write strictly before the first one that sets the LoRa-mode bit is a
Sleep write. -/
def sleepBeforeLoRa (ws : List (Nat × List Nat)) : Bool :=
  (ws.takeWhile (fun w => !setsLoRaBit w)).any isSleepWrite

/-- Some write up to and including the first one that sets the LoRa-mode bit is a
Sleep write. -/
def sleepNotAfterLoRa (ws : List (Nat × List Nat)) : Bool :=
  sleepBeforeLoRa ws || (ws.find? setsLoRaBit).any isSleepWrite

/-- Whether every access to the FIFO data register 0x00 in a list of register
operations comes after a write to the address pointer 0x0D with no reset pulse
in between; `ptr` tells whether such a write has already been seen. -/
def fifoGuarded : Bool → List RegOp → Bool
  | _, [] => true
  | _, RegOp.reset :: ops => fifoGuarded false ops
  | ptr, RegOp.read r _ :: ops =>
    if r = 0x00 then ptr && fifoGuarded ptr ops else fifoGuarded ptr ops
  | ptr, RegOp.write r _ :: ops =>
    if r = 0x00 then ptr && fifoGuarded ptr ops else fifoGuarded (ptr || r == 0x0D) ops

/-- Whether a register operation writes the address pointer 0x0D. -/
def isPtrWrite : RegOp → Bool
  | RegOp.write r _ => r == 0x0D
  | _ => false

/-- Whether a register operation accesses the FIFO data register 0x00. -/
def isFifoAccess : RegOp → Bool
  | RegOp.write r _ => r == 0x00
  | RegOp.read r _ => r == 0x00
  | RegOp.reset => false

/-- The value of an uppercase hexadecimal digit character; 16 for any other
character. -/
def hexVal (c : Nat) : Nat :=
  if 0x30 ≤ c ∧ c ≤ 0x39 then c - 0x30
  else if 0x41 ≤ c ∧ c ≤ 0x46 then c - 0x41 + 10
  else 16

/-- The character '1' or '0' for the bit of `v` selected by the mask `i`. -/
def bitChar (v i : Nat) : Nat := if v &&& i ≠ 0 then 0x31 else 0x30

/-- The number written by a list of '0'/'1' characters, most significant bit
first. -/
def binVal (cs : List Nat) : Nat := cs.foldl (fun acc c => 2 * acc + (c - 0x30)) 0

/-- Whether a register write goes to the transmit-base register 0x0E. -/
def isTxBaseWrite (w : Nat × List Nat) : Bool := w.1 == 0x0E

/-- Whether a register write goes to the receive-base register 0x0F. -/
def isRxBaseWrite (w : Nat × List Nat) : Bool := w.1 == 0x0F

/-- Whether a register write goes to the address pointer 0x0D or to the flags
register 0x12. -/
def isPtrOrFlagsWrite (w : Nat × List Nat) : Bool := w.1 == 0x0D || w.1 == 0x12

/-- Whether a register write goes to the mode register 0x01. -/
def isModeWrite (w : Nat × List Nat) : Bool := w.1 == 0x01

/-- The radio receiving the one-byte packet 'L' between two bus operations:
receive-done raised, packet at buffer address 0, length 1; every other register
is left as it is. -/
def sxReceiveL (c : Sx) : Sx :=
  { c with regs := setReg (setReg (setReg c.regs 0x12 0x40) 0x13 1) 0x10 0,
           fifo := fun _ => 0x4C }

/-- Three pin-change interrupts: a packet received, a spurious one with the pin
low, and a second packet. -/
def rxIrqs : List (Test07.Irq Sx) :=
  [ { evolve := sxReceiveL, PINB := 2 },
    { evolve := fun c => c, PINB := 0 },
    { evolve := sxReceiveL, PINB := 2 } ]

/-- Reset values of a few registers as the SX127x data sheet gives them: mode
0x09 (standby), transmit base 0x80, version 0x12, everything else 0. -/
def sxDefaults : Nat → Nat :=
  fun r => if r = 0x01 then 0x09 else if r = 0x0E then 0x80 else if r = 0x42 then 0x12 else 0

/-- An all-zero register file outside a frame. -/
def regFile0 : RegFile := { regs := fun _ => 0, phase := Phase.idle }

/-- A register file outside a frame whose registers all hold `v`. -/
def regFileConst (v : Nat) : RegFile := { regs := fun _ => v, phase := Phase.idle }

/-- A machine state with empty traces around a given slave state. -/
def mcu0 {σ : Type} (c : σ) : Mcu σ := { chip := c, SPDR := 0, bus := [], uart := [] }

end Avr

/-! ## Lemmas on the decoder and on bytes -/

namespace Avr

theorem decode_append_nss (pre rest : List BusEvent) :
    ∀ cur, decode cur (pre ++ BusEvent.nss false :: rest)
      = decode cur pre ++ decode (some []) rest := by
  induction pre with
  | nil => intro cur; cases cur <;> simp [decode]
  | cons e es ih =>
    intro cur
    cases e with
    | rst l => cases l <;> cases cur <;> simp [decode, ih]
    | nss l => cases l <;> cases cur <;> simp [decode, ih]
    | xfer a b => cases cur <;> simp [decode, ih]

theorem decode_append_rst (pre rest : List BusEvent) :
    ∀ cur, decode cur (pre ++ BusEvent.rst false :: rest)
      = decode cur pre ++ RegOp.reset :: decode none rest := by
  induction pre with
  | nil => intro cur; cases cur <;> simp [decode]
  | cons e es ih =>
    intro cur
    cases e with
    | rst l => cases l <;> cases cur <;> simp [decode, ih]
    | nss l => cases l <;> cases cur <;> simp [decode, ih]
    | xfer a b => cases cur <;> simp [decode, ih]

theorem writesOf_append (l1 l2 : List RegOp) :
    writesOf (l1 ++ l2) = writesOf l1 ++ writesOf l2 := by
  induction l1 with
  | nil => rfl
  | cons o os ih => cases o <;> simp [writesOf, ih]

theorem or_0x80_of_lt : ∀ reg, reg < 128 → (reg ||| 0x80) % 256 = reg + 128 := by
  decide

theorem or_0x80_ge (reg : Nat) : 0x80 ≤ (reg ||| 0x80) % 256 := by
  by_contra h
  have h1 : (reg ||| 0x80) % 256 < 2 ^ 7 := by omega
  have h2 := @Nat.testBit_lt_two_pow ((reg ||| 0x80) % 256) 7 h1
  have h3 : (reg ||| 0x80) % 256 = (reg ||| 0x80) % 2 ^ 8 := by norm_num
  rw [h3, Nat.testBit_mod_two_pow, Nat.testBit_or] at h2
  have h4 : Nat.testBit 0x80 7 = true := by decide
  simp [h4] at h2

end Avr

/-! ## The register access layer on an arbitrary slave -/

namespace Test07
open Avr

theorem write_reg_bus {σ : Type} (dev : Slave σ) (reg val : Nat) (s : Mcu σ) :
    ∃ m0 m1, (lora_write_reg dev reg val s).bus
      = s.bus ++ [BusEvent.nss false, BusEvent.xfer ((reg ||| 0x80) % 256) m0,
                  BusEvent.xfer (val % 256) m1, BusEvent.nss true] :=
  ⟨(dev.exchange (dev.select s.chip) ((reg ||| 0x80) % 256)).2 % 256,
   (dev.exchange (dev.exchange (dev.select s.chip) ((reg ||| 0x80) % 256)).1 (val % 256)).2 % 256,
   by simp [lora_write_reg, spi_chip_enable, spi_chip_disable, spi_wait_write,
      drive_NSS, store_SPDR]⟩

theorem write_reg_uart {σ : Type} (dev : Slave σ) (reg val : Nat) (s : Mcu σ) :
    (lora_write_reg dev reg val s).uart = s.uart := rfl

theorem read_reg_bus {σ : Type} (dev : Slave σ) (reg : Nat) (s : Mcu σ) :
    ∃ m0, (lora_read_reg dev reg s).1.bus
      = s.bus ++ [BusEvent.nss false, BusEvent.xfer (reg % 256) m0,
                  BusEvent.xfer 0 (lora_read_reg dev reg s).2, BusEvent.nss true] :=
  ⟨(dev.exchange (dev.select s.chip) (reg % 256)).2 % 256,
   by simp [lora_read_reg, spi_chip_enable, spi_chip_disable, spi_wait_write,
      drive_NSS, store_SPDR]⟩

theorem read_reg_uart {σ : Type} (dev : Slave σ) (reg : Nat) (s : Mcu σ) :
    (lora_read_reg dev reg s).1.uart = s.uart := rfl

theorem read_reg_lt {σ : Type} (dev : Slave σ) (reg : Nat) (s : Mcu σ) :
    (lora_read_reg dev reg s).2 < 256 := by
  simp only [lora_read_reg, spi_chip_enable, spi_chip_disable, spi_wait_write,
      drive_NSS, store_SPDR]
  exact Nat.mod_lt _ (by norm_num)

theorem regOps_write_reg {σ : Type} (dev : Slave σ) (reg val : Nat) (s : Mcu σ) :
    regOps (lora_write_reg dev reg val s).bus
      = regOps s.bus ++ [RegOp.write ((reg ||| 0x80) % 256 - 0x80) [val % 256]] := by
  obtain ⟨m0, m1, h⟩ := write_reg_bus dev reg val s
  have hge := or_0x80_ge reg
  simp only [regOps]
  rw [h, decode_append_nss]
  simp [decode, frameOp]
  exact hge

theorem regOps_read_reg {σ : Type} (dev : Slave σ) (reg : Nat) (s : Mcu σ)
    (h : reg % 256 < 0x80) :
    regOps (lora_read_reg dev reg s).1.bus
      = regOps s.bus ++ [RegOp.read (reg % 256) [(lora_read_reg dev reg s).2]] := by
  obtain ⟨m0, hb⟩ := read_reg_bus dev reg s
  simp only [regOps]
  rw [hb, decode_append_nss]
  simp [decode, frameOp, h]

theorem regOps_update_reg {σ : Type} (dev : Slave σ) (reg mask val : Nat) (s : Mcu σ)
    (h : reg % 256 < 0x80) :
    regOps (lora_update_reg dev reg mask val s).bus
      = regOps s.bus ++
        [RegOp.read (reg % 256) [(lora_read_reg dev reg s).2],
         RegOp.write ((reg ||| 0x80) % 256 - 0x80)
           [(val ||| (mask &&& (lora_read_reg dev reg s).2)) % 256]] := by
  simp [lora_update_reg, regOps_write_reg, regOps_read_reg, h]

theorem update_reg_uart {σ : Type} (dev : Slave σ) (reg mask val : Nat) (s : Mcu σ) :
    (lora_update_reg dev reg mask val s).uart = s.uart := rfl

end Test07

namespace Test08
open Avr

theorem read_reg_eq {σ : Type} (dev : Slave σ) (reg : Nat) (s : Mcu σ) :
    lora_read_reg dev reg s = Test07.lora_read_reg dev reg s := rfl

theorem write_reg_eq {σ : Type} (dev : Slave σ) (reg val : Nat) (s : Mcu σ) :
    lora_write_reg dev reg val s = Test07.lora_write_reg dev reg val s := rfl

end Test08

/-! ## The register access layer on the plain register file -/

namespace Test07
open Avr

theorem rf_read_reg_val (d : Nat → Nat) (reg : Nat) (s : Mcu RegFile) (h : reg < 0x80) :
    (lora_read_reg (regFileDev d) reg s).2 = s.chip.regs reg % 256 := by
  have h1 : reg % 256 = reg := Nat.mod_eq_of_lt (by omega)
  have h2 : reg % 128 = reg := Nat.mod_eq_of_lt h
  have h3 : ¬ (128 ≤ reg) := by omega
  simp [lora_read_reg, spi_chip_enable, spi_chip_disable, spi_wait_write, drive_NSS,
    store_SPDR, regFileDev, h1, h2, h3]

theorem rf_read_reg_regs (d : Nat → Nat) (reg : Nat) (s : Mcu RegFile) (h : reg < 0x80) :
    (lora_read_reg (regFileDev d) reg s).1.chip.regs = s.chip.regs := by
  have h1 : reg % 256 = reg := Nat.mod_eq_of_lt (by omega)
  have h3 : ¬ (128 ≤ reg) := by omega
  simp [lora_read_reg, spi_chip_enable, spi_chip_disable, spi_wait_write, drive_NSS,
    store_SPDR, regFileDev, h1, h3]

theorem rf_write_reg_regs (d : Nat → Nat) (reg val : Nat) (s : Mcu RegFile) (h : reg < 0x80) :
    (lora_write_reg (regFileDev d) reg val s).chip.regs = setReg s.chip.regs reg (val % 256) := by
  have h1 := or_0x80_of_lt reg h
  have h2 : (reg + 128) % 128 = reg := by omega
  simp [lora_write_reg, spi_chip_enable, spi_chip_disable, spi_wait_write, drive_NSS,
    store_SPDR, regFileDev, h1, h2]

end Test07

open Avr

/-! ## C1: the read-modify-write helper -/

/-- C1 (as stated, refuted): with keep_mask 0xFF, new_bits 0x01 and an old value
0x00 in register 0x01, bit 0 lies under the keep mask and yet differs from its
old value after `lora_update_reg`. -/
theorem C1_keep_mask_counterexample :
    ¬ (∀ i, Nat.testBit 0xFF i = true →
        Nat.testBit ((Test07.lora_update_reg (regFileDev (fun _ => 0)) 0x01 0xFF 0x01
          (mcu0 (regFileConst 0x00))).chip.regs 0x01) i
          = Nat.testBit ((mcu0 (regFileConst 0x00)).chip.regs 0x01) i) := by
  intro h
  have h0 := h 0 (by decide)
  revert h0
  decide

/-- C1 (amended): over the plain register file, for a register address below
0x80 and 8-bit value and old content, `lora_update_reg` leaves in the
register `new_bits | (keep_mask & old)`: a bit outside the keep mask equals the
bit of `new_bits`, a bit under the keep mask is the old bit or-ed with the bit
of `new_bits` (so it is the old bit when `new_bits` has no bit under the mask),
every other register keeps its value and the only write on the bus is the one
to `reg`. -/
theorem C1_update_reg (d : Nat → Nat) (reg mask val old : Nat) (s : Mcu RegFile)
    (hreg : reg < 0x80) (hval : val < 256)
    (hold : s.chip.regs reg = old) (hbyte : old < 256) :
    (Test07.lora_update_reg (regFileDev d) reg mask val s).chip.regs reg
        = val ||| (mask &&& old)
    ∧ (∀ i, Nat.testBit mask i = false →
        Nat.testBit ((Test07.lora_update_reg (regFileDev d) reg mask val s).chip.regs reg) i
          = Nat.testBit val i)
    ∧ (∀ i, Nat.testBit mask i = true →
        Nat.testBit ((Test07.lora_update_reg (regFileDev d) reg mask val s).chip.regs reg) i
          = (Nat.testBit old i || Nat.testBit val i))
    ∧ (mask &&& val = 0 → ∀ i, Nat.testBit mask i = true →
        Nat.testBit ((Test07.lora_update_reg (regFileDev d) reg mask val s).chip.regs reg) i
          = Nat.testBit old i)
    ∧ (∀ r, r ≠ reg →
        (Test07.lora_update_reg (regFileDev d) reg mask val s).chip.regs r = s.chip.regs r)
    ∧ writesOf (regOps (Test07.lora_update_reg (regFileDev d) reg mask val s).bus)
        = writesOf (regOps s.bus) ++ [(reg, [val ||| (mask &&& old)])] := by
  have hlt : val ||| (mask &&& old) < 256 :=
    @Nat.or_lt_two_pow val (mask &&& old) 8 hval (@Nat.and_lt_two_pow mask old 8 hbyte)
  have hv : (Test07.lora_read_reg (regFileDev d) reg s).2 = old := by
    rw [Test07.rf_read_reg_val d reg s hreg, hold, Nat.mod_eq_of_lt hbyte]
  have hres : (Test07.lora_update_reg (regFileDev d) reg mask val s).chip.regs reg
      = val ||| (mask &&& old) := by
    simp [Test07.lora_update_reg, Test07.rf_write_reg_regs, hreg, hv, setReg,
      Nat.mod_eq_of_lt hlt]
  have h256 : reg % 256 = reg := Nat.mod_eq_of_lt (by omega)
  refine ⟨hres, ?_, ?_, ?_, ?_, ?_⟩
  · intro i hi
    rw [hres]
    simp [hi]
  · intro i hi
    rw [hres]
    simp [hi, Bool.or_comm]
  · intro hz i hi
    rw [hres]
    have hb : Nat.testBit (mask &&& val) i = false := by rw [hz]; simp
    rw [Nat.testBit_and, hi] at hb
    simp at hb
    simp [hi, hb]
  · intro r hr
    simp [Test07.lora_update_reg, Test07.rf_write_reg_regs, Test07.rf_read_reg_regs, hreg,
      setReg, hr]
  · rw [Test07.regOps_update_reg _ _ _ _ _ (by omega), writesOf_append, hv,
      Avr.or_0x80_of_lt reg hreg, Nat.mod_eq_of_lt hlt]
    simp [writesOf]

/-- C1 witness: the standby-to-receive update of register 0x01 holding 0x09. -/
theorem C1_update_reg_witness :
    ((mcu0 (regFileConst 0x09)).chip.regs 0x01 = 0x09)
    ∧ ((Test07.lora_update_reg (regFileDev (fun _ => 0)) 0x01 0xF8 0x05
          (mcu0 (regFileConst 0x09))).chip.regs 0x01 = 0x05 ||| (0xF8 &&& 0x09)
    ∧ (∀ i, Nat.testBit 0xF8 i = false →
        Nat.testBit ((Test07.lora_update_reg (regFileDev (fun _ => 0)) 0x01 0xF8 0x05
          (mcu0 (regFileConst 0x09))).chip.regs 0x01) i = Nat.testBit 0x05 i)
    ∧ (∀ i, Nat.testBit 0xF8 i = true →
        Nat.testBit ((Test07.lora_update_reg (regFileDev (fun _ => 0)) 0x01 0xF8 0x05
          (mcu0 (regFileConst 0x09))).chip.regs 0x01) i
          = (Nat.testBit 0x09 i || Nat.testBit 0x05 i))
    ∧ (0xF8 &&& 0x05 = 0 → ∀ i, Nat.testBit 0xF8 i = true →
        Nat.testBit ((Test07.lora_update_reg (regFileDev (fun _ => 0)) 0x01 0xF8 0x05
          (mcu0 (regFileConst 0x09))).chip.regs 0x01) i = Nat.testBit 0x09 i)
    ∧ (∀ r, r ≠ 0x01 →
        (Test07.lora_update_reg (regFileDev (fun _ => 0)) 0x01 0xF8 0x05
          (mcu0 (regFileConst 0x09))).chip.regs r = (mcu0 (regFileConst 0x09)).chip.regs r)
    ∧ writesOf (regOps (Test07.lora_update_reg (regFileDev (fun _ => 0)) 0x01 0xF8 0x05
          (mcu0 (regFileConst 0x09))).bus)
        = writesOf (regOps (mcu0 (regFileConst 0x09)).bus) ++ [(0x01, [0x05 ||| (0xF8 &&& 0x09)])]) :=
  ⟨rfl, C1_update_reg (fun _ => 0) 0x01 0xF8 0x05 0x09 (mcu0 (regFileConst 0x09))
    (by decide) (by decide) rfl (by decide)⟩

/-! ## C7: the bus protocol of one register access -/

/-- C7: for a register address in 0x00..0x7F and any 8-bit value, in both test07
and test08, `lora_write_reg` puts on the bus chip-select low, the address byte
`reg | 0x80` (high bit set, low 7 bits `reg`), the data byte, chip-select high,
and `lora_read_reg` puts on the bus chip-select low, the address byte `reg`
(high bit clear), one data exchange, chip-select high; nothing else. -/
theorem C7_bus_protocol {σ : Type} (dev : Slave σ) (reg val : Nat) (s : Mcu σ)
    (hreg : reg < 0x80) (hval : val < 256) :
    (∃ m0 m1, (Test07.lora_write_reg dev reg val s).bus
        = s.bus ++ [BusEvent.nss false, BusEvent.xfer (reg ||| 0x80) m0,
                    BusEvent.xfer val m1, BusEvent.nss true])
    ∧ (∃ m0 m1, (Test08.lora_write_reg dev reg val s).bus
        = s.bus ++ [BusEvent.nss false, BusEvent.xfer (reg ||| 0x80) m0,
                    BusEvent.xfer val m1, BusEvent.nss true])
    ∧ (∃ m0 m1, (Test07.lora_read_reg dev reg s).1.bus
        = s.bus ++ [BusEvent.nss false, BusEvent.xfer reg m0,
                    BusEvent.xfer 0 m1, BusEvent.nss true])
    ∧ (∃ m0 m1, (Test08.lora_read_reg dev reg s).1.bus
        = s.bus ++ [BusEvent.nss false, BusEvent.xfer reg m0,
                    BusEvent.xfer 0 m1, BusEvent.nss true])
    ∧ Nat.testBit (reg ||| 0x80) 7 = true ∧ (reg ||| 0x80) % 0x80 = reg
    ∧ Nat.testBit reg 7 = false ∧ reg % 0x80 = reg := by
  have h1 : (reg ||| 0x80) % 256 = reg ||| 0x80 :=
    Nat.mod_eq_of_lt (@Nat.or_lt_two_pow reg 0x80 8 (by omega) (by norm_num))
  have h2 : val % 256 = val := Nat.mod_eq_of_lt hval
  have h3 : reg % 256 = reg := Nat.mod_eq_of_lt (by omega)
  have h4 : reg ||| 0x80 = reg + 128 := by
    have := or_0x80_of_lt reg hreg
    rw [h1] at this
    exact this
  have hw := Test07.write_reg_bus dev reg val s
  have hr := Test07.read_reg_bus dev reg s
  rw [h1, h2] at hw
  rw [h3] at hr
  refine ⟨hw, ?_, ?_, ?_, ?_, ?_, ?_, ?_⟩
  · rw [Test08.write_reg_eq]; exact hw
  · obtain ⟨m0, h⟩ := hr; exact ⟨m0, _, h⟩
  · rw [Test08.read_reg_eq]; obtain ⟨m0, h⟩ := hr; exact ⟨m0, _, h⟩
  · rw [Nat.testBit_or]
    have h5 : Nat.testBit 0x80 7 = true := by decide
    simp [h5]
  · rw [h4]; omega
  · exact @Nat.testBit_lt_two_pow reg 7 (by omega)
  · exact Nat.mod_eq_of_lt hreg

/-- C7 witness: the mode register 0x01 and the value 0x88. -/
theorem C7_bus_protocol_witness :
    (0x01 < 0x80 ∧ 0x88 < 256)
    ∧ ((∃ m0 m1, (Test07.lora_write_reg (regFileDev (fun _ => 0)) 0x01 0x88
          (mcu0 regFile0)).bus
        = (mcu0 regFile0).bus ++ [BusEvent.nss false, BusEvent.xfer (0x01 ||| 0x80) m0,
                    BusEvent.xfer 0x88 m1, BusEvent.nss true])
    ∧ (∃ m0 m1, (Test08.lora_write_reg (regFileDev (fun _ => 0)) 0x01 0x88
          (mcu0 regFile0)).bus
        = (mcu0 regFile0).bus ++ [BusEvent.nss false, BusEvent.xfer (0x01 ||| 0x80) m0,
                    BusEvent.xfer 0x88 m1, BusEvent.nss true])
    ∧ (∃ m0 m1, (Test07.lora_read_reg (regFileDev (fun _ => 0)) 0x01 (mcu0 regFile0)).1.bus
        = (mcu0 regFile0).bus ++ [BusEvent.nss false, BusEvent.xfer 0x01 m0,
                    BusEvent.xfer 0 m1, BusEvent.nss true])
    ∧ (∃ m0 m1, (Test08.lora_read_reg (regFileDev (fun _ => 0)) 0x01 (mcu0 regFile0)).1.bus
        = (mcu0 regFile0).bus ++ [BusEvent.nss false, BusEvent.xfer 0x01 m0,
                    BusEvent.xfer 0 m1, BusEvent.nss true])
    ∧ Nat.testBit (0x01 ||| 0x80) 7 = true ∧ (0x01 ||| 0x80) % 0x80 = 0x01
    ∧ Nat.testBit 0x01 7 = false ∧ 0x01 % 0x80 = 0x01) :=
  ⟨by decide, C7_bus_protocol (regFileDev (fun _ => 0)) 0x01 0x88 (mcu0 regFile0)
    (by decide) (by decide)⟩


namespace Test07

theorem uart_tx_bus {σ : Type} (b : Nat) (s : Mcu σ) : (uart_tx b s).bus = s.bus := rfl

theorem uart_tx_chip {σ : Type} (b : Nat) (s : Mcu σ) : (uart_tx b s).chip = s.chip := rfl

theorem p_str_bus {σ : Type} (str : List Nat) : ∀ s : Mcu σ, (p_str str s).bus = s.bus := by
  induction str with
  | nil => intro s; rfl
  | cons c cs ih =>
    intro s
    by_cases h : c = 0
    · simp [p_str, h]
    · simp [p_str, h, ih, uart_tx_bus]

theorem p_str_chip {σ : Type} (str : List Nat) : ∀ s : Mcu σ, (p_str str s).chip = s.chip := by
  induction str with
  | nil => intro s; rfl
  | cons c cs ih =>
    intro s
    by_cases h : c = 0
    · simp [p_str, h]
    · simp [p_str, h, ih, uart_tx_chip]

theorem regOps_reset {σ : Type} (dev : Slave σ) (s : Mcu σ) :
    regOps (lora_reset dev s).bus = regOps s.bus ++ [RegOp.reset] := by
  have h : (lora_reset dev s).bus = s.bus ++ [BusEvent.rst false, BusEvent.rst true] := by
    simp [lora_reset, drive_RST]
  simp only [regOps]
  rw [h, decode_append_rst]
  simp [decode]

theorem regOps_print_reg {σ : Type} (dev : Slave σ) (reg : Nat) (s : Mcu σ)
    (h : reg % 256 < 0x80) :
    regOps (lora_print_reg dev reg s).bus
      = regOps s.bus ++ [RegOp.read (reg % 256) [(lora_read_reg dev reg s).2]] := by
  have hb : (lora_print_reg dev reg s).bus = (lora_read_reg dev reg s).1.bus := by
    simp [lora_print_reg, uart_tx_bus, p_str_bus]
  rw [hb, regOps_read_reg dev reg s h]

/-- The register operations of `lora_init` on any slave: `x0` is the version
read back, `x1 .. x11` are the values read by the eleven read-modify-write
steps. -/
theorem init_ops {σ : Type} (dev : Slave σ) (s : Mcu σ) :
    ∃ x0 x1 x2 x3 x4 x5 x6 x7 x8 x9 x10 x11 : Nat,
      regOps (lora_init dev s).bus = regOps s.bus ++
        [RegOp.reset,
         RegOp.read 0x42 [x0],
         RegOp.read 0x01 [x1], RegOp.write 0x01 [(0x00 ||| (0xF8 &&& x1)) % 256],
         RegOp.read 0x01 [x2], RegOp.write 0x01 [(0x80 ||| (0x7F &&& x2)) % 256],
         RegOp.read 0x1D [x3], RegOp.write 0x1D [(0x00 ||| (0xFE &&& x3)) % 256],
         RegOp.read 0x1D [x4], RegOp.write 0x1D [(0x08 ||| (0xF1 &&& x4)) % 256],
         RegOp.read 0x1D [x5], RegOp.write 0x1D [(0x60 ||| (0x0F &&& x5)) % 256],
         RegOp.read 0x1E [x6], RegOp.write 0x1E [(0xC0 ||| (0x0F &&& x6)) % 256],
         RegOp.read 0x1E [x7], RegOp.write 0x1E [(0x00 ||| (0xFB &&& x7)) % 256],
         RegOp.read 0x0B [x8], RegOp.write 0x0B [(0x00 ||| (0xDF &&& x8)) % 256],
         RegOp.write 0x4D [0x87],
         RegOp.write 0x09 [0xF2],
         RegOp.write 0x39 [0x12],
         RegOp.write 0x20 [0x00],
         RegOp.write 0x21 [0x06],
         RegOp.write 0x26 [0x04],
         RegOp.write 0x0C [0x20],
         RegOp.write 0x0E [0x00],
         RegOp.write 0x0F [0x00],
         RegOp.write 0x31 [0xC3],
         RegOp.write 0x37 [0x0A],
         RegOp.write 0x06 [0x6C],
         RegOp.write 0x07 [0xB3],
         RegOp.write 0x08 [0x34],
         RegOp.read 0x26 [x9], RegOp.write 0x26 [(0x08 ||| (0xF7 &&& x9)) % 256],
         RegOp.read 0x01 [x10], RegOp.write 0x01 [(0x01 ||| (0xF8 &&& x10)) % 256],
         RegOp.write 0x40 [0x00],
         RegOp.read 0x01 [x11], RegOp.write 0x01 [(0x05 ||| (0xF8 &&& x11)) % 256]]
      ∧ x1 < 256 ∧ x2 < 256 ∧ x11 < 256 := by
  repeat apply Exists.intro
  constructor
  · simp only [lora_init, lora_set_sleep_mode, lora_set_lora_mode, lora_set_explicit_header,
      lora_set_error_crc_cr8, lora_set_bandwidth_62_5, lora_set_sf_12, lora_set_crc_off,
      lora_set_ocp_off, lora_set_max_tx_power_20dbm, lora_set_pa_boost_20dbm,
      lora_set_syncword_0x12, lora_set_preample_len_6, lora_set_agc_on,
      lora_set_lna_gain_highest, lora_reset_tx_base_address, lora_reset_rx_base_address,
      lora_set_detection_optimize_for_sf_7to12, lora_set_detection_threshold_for_sf_7to12,
      lora_set_freq_434800000, lora_set_low_data_optimize_on, lora_set_standby_mode,
      lora_map_rx_to_dio0, lora_set_rx_cont_mode]
    rw [regOps_update_reg _ _ _ _ _ (by norm_num), regOps_write_reg,
      regOps_update_reg _ _ _ _ _ (by norm_num), regOps_update_reg _ _ _ _ _ (by norm_num)]
    repeat rw [regOps_write_reg]
    repeat rw [regOps_update_reg _ _ _ _ _ (by norm_num)]
    rw [regOps_print_reg _ _ _ (by norm_num), regOps_reset]
    simp only [List.append_assoc, List.cons_append, List.nil_append]
    rfl
  · exact ⟨read_reg_lt _ _ _, read_reg_lt _ _ _, read_reg_lt _ _ _⟩

end Test07

namespace Test08

theorem regOps_reset_pin {σ : Type} (dev : Slave σ) (s : Mcu σ) :
    regOps (lora_reset_pin dev s).bus = regOps s.bus ++ [RegOp.reset] :=
  Test07.regOps_reset dev s

theorem init_tx_unfold {σ : Type} (dev : Slave σ) (s : Mcu σ) :
    lora_init_tx dev s
      = some (List.foldl (fun t e => lora_write_reg dev e.1 e.2 t) (lora_reset_pin dev s)
          (tableEntries lora_tx_init_blob)) := rfl

theorem regOps_foldl_writes {σ : Type} (dev : Slave σ) (l : List (Nat × Nat)) :
    ∀ s : Mcu σ, regOps (List.foldl (fun t e => lora_write_reg dev e.1 e.2 t) s l).bus
      = regOps s.bus ++ l.map (fun e => RegOp.write ((e.1 ||| 0x80) % 256 - 0x80) [e.2 % 256]) := by
  induction l with
  | nil => intro s; simp
  | cons e es ih =>
    intro s
    simp only [List.foldl_cons, List.map_cons]
    rw [ih, write_reg_eq, Test07.regOps_write_reg]
    simp only [List.append_assoc, List.cons_append, List.nil_append]

/-- The register operations of `lora_init_tx` on any slave. -/
theorem init_tx_ops {σ : Type} (dev : Slave σ) (s : Mcu σ) :
    ∃ s1, lora_init_tx dev s = some s1 ∧
      regOps s1.bus = regOps s.bus ++
        [RegOp.reset,
         RegOp.write 0x01 [0x88],
         RegOp.write 0x06 [0x6C],
         RegOp.write 0x07 [0xB3],
         RegOp.write 0x08 [0x34],
         RegOp.write 0x0B [0x0B],
         RegOp.write 0x0E [0x00],
         RegOp.write 0x00 [0x4C],
         RegOp.write 0x1D [0x23],
         RegOp.write 0x1E [0xC4],
         RegOp.write 0x20 [0x00],
         RegOp.write 0x21 [0x06],
         RegOp.write 0x22 [0x01],
         RegOp.write 0x26 [0x0C],
         RegOp.write 0x31 [0xC3],
         RegOp.write 0x37 [0x0A],
         RegOp.write 0x39 [0x12],
         RegOp.write 0x40 [0x40],
         RegOp.write 0x4D [0x87],
         RegOp.write 0x09 [0xFF],
         RegOp.write 0x01 [0x8B]] := by
  refine ⟨_, init_tx_unfold dev s, ?_⟩
  rw [regOps_foldl_writes, regOps_reset_pin, List.append_assoc]
  rfl

end Test08

/-! ## The register access layer on the transceiver model -/

namespace Test07

theorem sx_read_reg_val (d : Nat → Nat) (reg : Nat) (s : Mcu Sx) (h : reg < 0x80)
    (h0 : reg ≠ 0) : (lora_read_reg (sxDev d) reg s).2 = s.chip.regs reg % 256 := by
  have h1 : reg % 256 = reg := Nat.mod_eq_of_lt (by omega)
  have h2 : reg % 128 = reg := Nat.mod_eq_of_lt h
  have h3 : ¬ (128 ≤ reg) := by omega
  simp [lora_read_reg, spi_chip_enable, spi_chip_disable, spi_wait_write, drive_NSS,
    store_SPDR, sxDev, h1, h2, h3, h0]

theorem sx_read_reg_regs (d : Nat → Nat) (reg : Nat) (s : Mcu Sx) (h : reg < 0x80)
    (h0 : reg ≠ 0) : (lora_read_reg (sxDev d) reg s).1.chip.regs = s.chip.regs := by
  have h1 : reg % 256 = reg := Nat.mod_eq_of_lt (by omega)
  have h2 : reg % 128 = reg := Nat.mod_eq_of_lt h
  have h3 : ¬ (128 ≤ reg) := by omega
  simp [lora_read_reg, spi_chip_enable, spi_chip_disable, spi_wait_write, drive_NSS,
    store_SPDR, sxDev, h1, h2, h3, h0]

theorem sx_read_reg_fifo (d : Nat → Nat) (reg : Nat) (s : Mcu Sx) (h : reg < 0x80)
    (h0 : reg ≠ 0) : (lora_read_reg (sxDev d) reg s).1.chip.fifo = s.chip.fifo := by
  have h1 : reg % 256 = reg := Nat.mod_eq_of_lt (by omega)
  have h2 : reg % 128 = reg := Nat.mod_eq_of_lt h
  have h3 : ¬ (128 ≤ reg) := by omega
  simp [lora_read_reg, spi_chip_enable, spi_chip_disable, spi_wait_write, drive_NSS,
    store_SPDR, sxDev, h1, h2, h3, h0]

theorem sx_write_reg_regs (d : Nat → Nat) (reg val : Nat) (s : Mcu Sx) (h : reg < 0x80)
    (h0 : reg ≠ 0) (h12 : reg ≠ 0x12) :
    (lora_write_reg (sxDev d) reg val s).chip.regs = setReg s.chip.regs reg (val % 256) := by
  have h1 := or_0x80_of_lt reg h
  have h2 : (reg + 128) % 128 = reg := by omega
  simp [lora_write_reg, spi_chip_enable, spi_chip_disable, spi_wait_write, drive_NSS,
    store_SPDR, sxDev, h1, h2, h0, h12]

theorem sx_write_reg_fifo (d : Nat → Nat) (reg val : Nat) (s : Mcu Sx) (h : reg < 0x80)
    (h0 : reg ≠ 0) : (lora_write_reg (sxDev d) reg val s).chip.fifo = s.chip.fifo := by
  have h1 := or_0x80_of_lt reg h
  have h2 : (reg + 128) % 128 = reg := by omega
  by_cases h12 : reg = 0x12
  · simp [lora_write_reg, spi_chip_enable, spi_chip_disable, spi_wait_write, drive_NSS,
      store_SPDR, sxDev, h12]
  · simp [lora_write_reg, spi_chip_enable, spi_chip_disable, spi_wait_write, drive_NSS,
      store_SPDR, sxDev, h1, h2, h0, h12]

theorem sx_write_flags_regs (d : Nat → Nat) (val : Nat) (s : Mcu Sx) :
    (lora_write_reg (sxDev d) 0x12 val s).chip.regs
      = setReg s.chip.regs 0x12 (s.chip.regs 0x12 &&& (0xFF ^^^ (val % 256))) := by
  simp [lora_write_reg, spi_chip_enable, spi_chip_disable, spi_wait_write, drive_NSS,
    store_SPDR, sxDev]

end Test07

namespace Avr

set_option maxRecDepth 100000 in
theorem rx_cont_low_bits : ∀ x, x < 256 → (0x05 ||| (0xF8 &&& x)) % 256 % 8 = 5 := by
  decide

set_option maxRecDepth 100000 in
theorem sleep_low_bits : ∀ x, x < 256 → (0x00 ||| (0xF8 &&& x)) % 256 % 8 = 0 := by
  decide

end Avr

/-! ## C2: the configuration ends in the operating mode -/

/-- C2: on any slave and from any state, the last register write of the receiver
configuration `lora_init` goes to register 0x01 with low three bits 0b101, and
the last register write of the transmitter configuration `lora_init_tx` goes to
register 0x01 with the value 0x8B, low three bits 0b011; on the transceiver
model, whatever its registers held and whatever a reset loads, register 0x01
has these low three bits afterwards. -/
theorem C2_final_mode {σ : Type} (dev : Slave σ) (s : Mcu σ) (d : Nat → Nat) (t : Mcu Sx) :
    (∃ v, (writesOf (regOps (Test07.lora_init dev s).bus)).getLast? = some (0x01, [v])
        ∧ v % 8 = 0b101)
    ∧ (Test07.lora_init (sxDev d) t).chip.regs 0x01 % 8 = 0b101
    ∧ (∃ s1, Test08.lora_init_tx dev s = some s1
        ∧ (writesOf (regOps s1.bus)).getLast? = some (0x01, [0x8B]) ∧ 0x8B % 8 = 0b011)
    ∧ (∃ t1, Test08.lora_init_tx (sxDev d) t = some t1 ∧ t1.chip.regs 0x01 % 8 = 0b011) := by
  refine ⟨?_, ?_, ?_, ?_⟩
  · obtain ⟨x0, x1, x2, x3, x4, x5, x6, x7, x8, x9, x10, x11, h, _, _, h11⟩ :=
      Test07.init_ops dev s
    refine ⟨(0x05 ||| (0xF8 &&& x11)) % 256, ?_, rx_cont_low_bits x11 h11⟩
    rw [h, writesOf_append]
    simp [writesOf]
  · simp only [Test07.lora_init, Test07.lora_set_rx_cont_mode, Test07.lora_update_reg]
    rw [Test07.sx_write_reg_regs _ _ _ _ (by norm_num) (by norm_num) (by norm_num)]
    simp only [setReg, if_true]
    exact rx_cont_low_bits _ (Test07.read_reg_lt _ _ _)
  · obtain ⟨s1, h1, h2⟩ := Test08.init_tx_ops dev s
    refine ⟨s1, h1, ?_, by norm_num⟩
    rw [h2, writesOf_append]
    simp [writesOf]
  · refine ⟨_, Test08.init_tx_unfold (sxDev d) t, ?_⟩
    simp only [Test08.tableEntries, Test08.lora_tx_init_blob, List.foldl]
    simp only [Test08.write_reg_eq]
    rw [Test07.sx_write_reg_regs _ _ _ _ (by norm_num) (by norm_num) (by norm_num)]
    simp [setReg]

/-! ## C3: the carrier frequency -/

/-- C3: on any slave, the writes that `lora_init` and `lora_init_tx` issue to the
frequency registers are exactly 0x06 := 0x6C, 0x07 := 0xB3, 0x08 := 0x34, in
this order, and with the 32 MHz crystal these bytes encode a carrier less than
1 kHz away from 434.8 MHz. -/
theorem C3_frequency {σ : Type} (dev : Slave σ) (s : Mcu σ) :
    (∃ L, regOps (Test07.lora_init dev s).bus = regOps s.bus ++ L
        ∧ (writesOf L).filter isFreqWrite = [(0x06, [0x6C]), (0x07, [0xB3]), (0x08, [0x34])])
    ∧ (∃ s1 L, Test08.lora_init_tx dev s = some s1 ∧ regOps s1.bus = regOps s.bus ++ L
        ∧ (writesOf L).filter isFreqWrite = [(0x06, [0x6C]), (0x07, [0xB3]), (0x08, [0x34])])
    ∧ |carrierHz 0x6C 0xB3 0x34 - 434800000| < 1000 := by
  refine ⟨?_, ?_, ?_⟩
  · obtain ⟨x0, x1, x2, x3, x4, x5, x6, x7, x8, x9, x10, x11, h, _⟩ := Test07.init_ops dev s
    refine ⟨_, h, ?_⟩
    simp [writesOf, isFreqWrite]
  · obtain ⟨s1, h1, h2⟩ := Test08.init_tx_ops dev s
    refine ⟨s1, _, h1, h2, ?_⟩
    simp [writesOf, isFreqWrite]
  · have h : ((0x6C <<< 16) ||| (0xB3 <<< 8) ||| 0x34 : Nat) = 7123764 := by decide
    simp only [carrierHz, Fcrystal, h]
    rw [abs_lt]
    constructor <;> norm_num

/-! ## The packet drain -/

namespace Avr

theorem decode_xfers (a : Nat) (bs : List Nat) (rest : List BusEvent) :
    ∀ f, decode (some f) (bs.map (fun b => BusEvent.xfer a b) ++ rest)
      = decode (some (f ++ bs.map (fun b => (a, b)))) rest := by
  induction bs with
  | nil => intro f; simp
  | cons b bs ih => intro f; simp [decode, ih]

theorem burstBytes_length {σ : Type} (dev : Slave σ) (n : Nat) :
    ∀ c : σ, (burstBytes dev n c).length = n := by
  induction n with
  | zero => intro c; rfl
  | succ n ih => intro c; simp [burstBytes, ih]

end Avr

namespace Test07

theorem rx_loop_bus {σ : Type} (dev : Slave σ) (n : Nat) :
    ∀ s : Mcu σ, (lora_read_rx_data_loop dev n s).bus
      = s.bus ++ (burstBytes dev n s.chip).map (fun b => BusEvent.xfer 0 b) := by
  induction n with
  | zero => intro s; simp [lora_read_rx_data_loop, burstBytes]
  | succ n ih =>
    intro s
    simp [lora_read_rx_data_loop, burstBytes, ih, store_SPDR, spi_wait_write, uart_tx,
      store_UDR0]

theorem rx_loop_uart {σ : Type} (dev : Slave σ) (n : Nat) :
    ∀ s : Mcu σ, (lora_read_rx_data_loop dev n s).uart = s.uart ++ burstBytes dev n s.chip := by
  induction n with
  | zero => intro s; simp [lora_read_rx_data_loop, burstBytes]
  | succ n ih =>
    intro s
    simp [lora_read_rx_data_loop, burstBytes, ih, store_SPDR, spi_wait_write, uart_tx,
      store_UDR0]

theorem rx_loop_chip {σ : Type} (dev : Slave σ) (n : Nat) :
    ∀ s : Mcu σ, (lora_read_rx_data_loop dev n s).chip = burstChip dev n s.chip := by
  induction n with
  | zero => intro s; simp [lora_read_rx_data_loop, burstChip]
  | succ n ih =>
    intro s
    simp [lora_read_rx_data_loop, burstChip, ih, store_SPDR, spi_wait_write, uart_tx,
      store_UDR0]

theorem regOps_burst {σ : Type} (dev : Slave σ) (n : Nat) (s : Mcu σ) :
    regOps (spi_chip_disable dev (lora_read_rx_data_loop dev n
        (spi_wait_write (store_SPDR dev 0x00 (spi_chip_enable dev s))))).bus
      = regOps s.bus ++ [RegOp.read 0x00 (burstBytes dev n (dev.exchange (dev.select s.chip) 0).1)] := by
  simp only [regOps, spi_chip_disable, drive_NSS, rx_loop_bus, spi_wait_write, store_SPDR,
    spi_chip_enable]
  simp only [List.append_assoc, List.cons_append, List.nil_append, Bool.false_eq_true,
    if_false, Nat.zero_mod]
  rw [decode_append_nss]
  simp only [decode, List.nil_append]
  rw [decode_xfers]
  simp [decode, frameOp]

theorem burst_uart {σ : Type} (dev : Slave σ) (n : Nat) (s : Mcu σ) :
    (spi_chip_disable dev (lora_read_rx_data_loop dev n
        (spi_wait_write (store_SPDR dev 0x00 (spi_chip_enable dev s))))).uart
      = s.uart ++ burstBytes dev n (dev.exchange (dev.select s.chip) 0).1 := by
  simp [spi_chip_disable, drive_NSS, rx_loop_uart, spi_wait_write, store_SPDR,
    spi_chip_enable]

/-- The register operations of `lora_read_rx_data` on any slave. -/
theorem read_rx_data_regOps {σ : Type} (dev : Slave σ) (s : Mcu σ) :
    regOps (lora_read_rx_data dev s).bus = regOps s.bus ++
      [RegOp.read 0x10 [(lora_read_reg dev 0x10 s).2],
       RegOp.write 0x0D [(lora_read_reg dev 0x10 s).2],
       RegOp.read 0x13 [(lora_read_reg dev 0x13
          (lora_write_reg dev 0x0D (lora_read_reg dev 0x10 s).2 (lora_read_reg dev 0x10 s).1)).2],
       RegOp.read 0x00 (burstBytes dev
          (lora_read_reg dev 0x13
            (lora_write_reg dev 0x0D (lora_read_reg dev 0x10 s).2 (lora_read_reg dev 0x10 s).1)).2
          (dev.exchange (dev.select (lora_read_reg dev 0x13
            (lora_write_reg dev 0x0D (lora_read_reg dev 0x10 s).2
              (lora_read_reg dev 0x10 s).1)).1.chip) 0).1),
       RegOp.write 0x12 [0xFF]] := by
  simp only [lora_read_rx_data, lora_get_rx_data_address, lora_set_fifo_buffer_address,
    lora_get_rx_data_len, lora_reset_irq_flags, uart_tx_bus]
  rw [regOps_write_reg, regOps_burst, regOps_read_reg _ _ _ (by norm_num), regOps_write_reg,
    regOps_read_reg _ _ _ (by norm_num),
    Nat.mod_eq_of_lt (read_reg_lt dev 0x10 s)]
  simp only [List.append_assoc, List.cons_append, List.nil_append]
  rfl

/-- The sink output of `lora_read_rx_data` on any slave. -/
theorem read_rx_data_uart {σ : Type} (dev : Slave σ) (s : Mcu σ) :
    (lora_read_rx_data dev s).uart = s.uart ++ burstBytes dev
          (lora_read_reg dev 0x13
            (lora_write_reg dev 0x0D (lora_read_reg dev 0x10 s).2 (lora_read_reg dev 0x10 s).1)).2
          (dev.exchange (dev.select (lora_read_reg dev 0x13
            (lora_write_reg dev 0x0D (lora_read_reg dev 0x10 s).2
              (lora_read_reg dev 0x10 s).1)).1.chip) 0).1
        ++ [0x0D, 0x0A] := by
  simp only [lora_read_rx_data, lora_get_rx_data_address, lora_set_fifo_buffer_address,
    lora_get_rx_data_len, lora_reset_irq_flags, uart_tx, store_UDR0, write_reg_uart]
  rw [burst_uart, read_reg_uart, write_reg_uart, read_reg_uart]
  simp

/-- The drain on any slave, with the values left abstract: `a` is the value read
from 0x10, `n` the value read from 0x13 and `bs` the bytes of the burst. -/
theorem read_rx_data_ops {σ : Type} (dev : Slave σ) (s : Mcu σ) :
    ∃ a n bs,
      regOps (lora_read_rx_data dev s).bus = regOps s.bus ++
        [RegOp.read 0x10 [a], RegOp.write 0x0D [a], RegOp.read 0x13 [n],
         RegOp.read 0x00 bs, RegOp.write 0x12 [0xFF]]
      ∧ (lora_read_rx_data dev s).uart = s.uart ++ bs ++ [0x0D, 0x0A]
      ∧ bs.length = n :=
  ⟨_, _, _, read_rx_data_regOps dev s, read_rx_data_uart dev s, burstBytes_length dev _ _⟩

theorem sx_burstBytes (d : Nat → Nat) (n : Nat) :
    ∀ c : Sx, c.phase = Phase.data false 0 →
      burstBytes (sxDev d) n c
        = (List.range n).map (fun i => c.fifo ((c.regs 0x0D + i) % 256) % 256) := by
  induction n with
  | zero => intro c _; rfl
  | succ n ih =>
    intro c hc
    have hstep : (sxDev d).exchange c 0
        = ({ c with regs := setReg c.regs 0x0D ((c.regs 0x0D + 1) % 256) },
            c.fifo (c.regs 0x0D % 256)) := by
      simp [sxDev, hc]
    rw [burstBytes, hstep]
    simp only []
    rw [ih { c with regs := setReg c.regs 0x0D ((c.regs 0x0D + 1) % 256) } hc,
      List.range_succ_eq_map]
    simp only [List.map_cons, List.map_map, setReg, if_true, Nat.add_zero]
    congr 1
    apply List.map_congr_left
    intro i _
    simp only [Function.comp]
    congr 2
    omega

theorem sx_select_addr0 (d : Nat → Nat) (c : Sx) :
    ((sxDev d).exchange ((sxDev d).select c) 0).1 = { c with phase := Phase.data false 0 } := by
  simp [sxDev]

/-- The drain on the transceiver model: with `A` in the current-receive-address
register 0x10 and `N` in the byte-count register 0x13, the burst returns the `N`
bytes of the packet buffer from address `A` on. -/
theorem sx_read_rx_data (d : Nat → Nat) (A N : Nat) (s : Mcu Sx)
    (hA : s.chip.regs 0x10 = A) (hN : s.chip.regs 0x13 = N) (hAb : A < 256) (hNb : N < 256) :
    regOps (lora_read_rx_data (sxDev d) s).bus = regOps s.bus ++
        [RegOp.read 0x10 [A], RegOp.write 0x0D [A], RegOp.read 0x13 [N],
         RegOp.read 0x00 ((List.range N).map (fun i => s.chip.fifo ((A + i) % 256) % 256)),
         RegOp.write 0x12 [0xFF]]
    ∧ (lora_read_rx_data (sxDev d) s).uart = s.uart
        ++ (List.range N).map (fun i => s.chip.fifo ((A + i) % 256) % 256) ++ [0x0D, 0x0A] := by
  have e1 : (lora_read_reg (sxDev d) 0x10 s).2 = A := by
    rw [sx_read_reg_val d 0x10 s (by norm_num) (by norm_num), hA, Nat.mod_eq_of_lt hAb]
  have e2r : (lora_write_reg (sxDev d) 0x0D A (lora_read_reg (sxDev d) 0x10 s).1).chip.regs
      = setReg s.chip.regs 0x0D A := by
    rw [sx_write_reg_regs d 0x0D A _ (by norm_num) (by norm_num) (by norm_num),
      sx_read_reg_regs d 0x10 s (by norm_num) (by norm_num), Nat.mod_eq_of_lt hAb]
  have e2f : (lora_write_reg (sxDev d) 0x0D A (lora_read_reg (sxDev d) 0x10 s).1).chip.fifo
      = s.chip.fifo := by
    rw [sx_write_reg_fifo d 0x0D A _ (by norm_num) (by norm_num),
      sx_read_reg_fifo d 0x10 s (by norm_num) (by norm_num)]
  have e3 : (lora_read_reg (sxDev d) 0x13
      (lora_write_reg (sxDev d) 0x0D A (lora_read_reg (sxDev d) 0x10 s).1)).2 = N := by
    rw [sx_read_reg_val d 0x13 _ (by norm_num) (by norm_num), e2r]
    simp [setReg, hN, Nat.mod_eq_of_lt hNb]
  have e4 : burstBytes (sxDev d) N ((sxDev d).exchange ((sxDev d).select (lora_read_reg (sxDev d) 0x13
      (lora_write_reg (sxDev d) 0x0D A (lora_read_reg (sxDev d) 0x10 s).1)).1.chip) 0).1
      = (List.range N).map (fun i => s.chip.fifo ((A + i) % 256) % 256) := by
    rw [sx_select_addr0, sx_burstBytes d N _ rfl]
    simp only [sx_read_reg_regs d 0x13 _ (by norm_num) (by norm_num),
      sx_read_reg_fifo d 0x13 _ (by norm_num) (by norm_num), e2r, e2f, setReg, if_true]
  constructor
  · rw [read_rx_data_regOps, e1, e3, e4]
  · rw [read_rx_data_uart, e1, e3, e4]

end Test07

/-! ## C4: the bus sequence of the packet drain -/

/-- C4: on the transceiver model with `A` in register 0x10 and `N` in register
0x13, `lora_read_rx_data` issues, in this order and nothing else: the read of
0x10, one write of `A` to the address pointer 0x0D, the read of 0x13, one
chip-select frame on the data register 0x00 with exactly `N` data bytes, and the
write of 0xFF to the flags register 0x12.  On any slave the same five frames are
issued, with `a` and `n` the values the slave returns for 0x10 and 0x13. -/
theorem C4_read_rx_data {σ : Type} (dev : Slave σ) (s0 : Mcu σ) (d : Nat → Nat) (A N : Nat)
    (s : Mcu Sx) (hA : s.chip.regs 0x10 = A) (hN : s.chip.regs 0x13 = N)
    (hAb : A < 256) (hNb : N < 256) :
    (regOps (Test07.lora_read_rx_data (sxDev d) s).bus = regOps s.bus ++
        [RegOp.read 0x10 [A], RegOp.write 0x0D [A], RegOp.read 0x13 [N],
         RegOp.read 0x00 ((List.range N).map (fun i => s.chip.fifo ((A + i) % 256) % 256)),
         RegOp.write 0x12 [0xFF]])
    ∧ ((List.range N).map (fun i => s.chip.fifo ((A + i) % 256) % 256)).length = N
    ∧ (∃ a n bs, regOps (Test07.lora_read_rx_data dev s0).bus = regOps s0.bus ++
        [RegOp.read 0x10 [a], RegOp.write 0x0D [a], RegOp.read 0x13 [n],
         RegOp.read 0x00 bs, RegOp.write 0x12 [0xFF]] ∧ bs.length = n) := by
  refine ⟨(Test07.sx_read_rx_data d A N s hA hN hAb hNb).1, by simp, ?_⟩
  obtain ⟨a, n, bs, h1, _, h3⟩ := Test07.read_rx_data_ops dev s0
  exact ⟨a, n, bs, h1, h3⟩

/-- C4 witness: the one-byte packet 'L' at buffer address 0. -/
theorem C4_read_rx_data_witness :
    ((mcu0 sxPacketL).chip.regs 0x10 = 0 ∧ (mcu0 sxPacketL).chip.regs 0x13 = 1
      ∧ 0 < 256 ∧ 1 < 256)
    ∧ ((regOps (Test07.lora_read_rx_data (sxDev (fun _ => 0)) (mcu0 sxPacketL)).bus
        = regOps (mcu0 sxPacketL).bus ++
        [RegOp.read 0x10 [0], RegOp.write 0x0D [0], RegOp.read 0x13 [1],
         RegOp.read 0x00
           ((List.range 1).map (fun i => (mcu0 sxPacketL).chip.fifo ((0 + i) % 256) % 256)),
         RegOp.write 0x12 [0xFF]])
    ∧ ((List.range 1).map (fun i => (mcu0 sxPacketL).chip.fifo ((0 + i) % 256) % 256)).length = 1
    ∧ (∃ a n bs, regOps (Test07.lora_read_rx_data (regFileDev (fun _ => 0))
          (mcu0 regFile0)).bus = regOps (mcu0 regFile0).bus ++
        [RegOp.read 0x10 [a], RegOp.write 0x0D [a], RegOp.read 0x13 [n],
         RegOp.read 0x00 bs, RegOp.write 0x12 [0xFF]] ∧ bs.length = n)) :=
  ⟨⟨rfl, rfl, by decide, by decide⟩,
   C4_read_rx_data (regFileDev (fun _ => 0)) (mcu0 regFile0) (fun _ => 0) 0 1 (mcu0 sxPacketL)
     rfl rfl (by decide) (by decide)⟩

/-! ## C5: what the receive interrupt sends to the diagnostic sink -/

/-- C5: on the transceiver model, when the handler of the pin-change interrupt
finds the DIO0 pin high and the receive-done flag (0x40 of register 0x12) set,
with the packet of `N` bytes (register 0x13) stored in the packet buffer from
address `A` (register 0x10) on, the bytes it sends to the diagnostic sink are
exactly the `N` packet bytes in order followed by CR LF; for `N = 1` and the
byte 0x4C these are 'L', CR, LF. -/
theorem C5_rx_sink (d : Nat → Nat) (PINB F A N : Nat) (s : Mcu Sx)
    (hpin : PINB &&& Test07.LORA_RX_DONE ≠ 0)
    (hF : s.chip.regs 0x12 = F) (hFb : F < 256) (hdone : 0x40 &&& F ≠ 0)
    (hA : s.chip.regs 0x10 = A) (hN : s.chip.regs 0x13 = N) (hAb : A < 256) (hNb : N < 256)
    (hfifo : ∀ a, s.chip.fifo a < 256) :
    (Test07.ISR_PCINT0_vect (sxDev d) PINB s).uart
        = s.uart ++ (List.range N).map (fun i => s.chip.fifo ((A + i) % 256)) ++ [0x0D, 0x0A]
    ∧ (N = 1 → s.chip.fifo A = 0x4C →
        (Test07.ISR_PCINT0_vect (sxDev d) PINB s).uart = s.uart ++ [0x4C, 0x0D, 0x0A]) := by
  have hflag : (Test07.lora_read_reg (sxDev d) 0x12 s).2 = F := by
    rw [Test07.sx_read_reg_val d 0x12 s (by norm_num) (by norm_num), hF, Nat.mod_eq_of_lt hFb]
  have hregs := Test07.sx_read_reg_regs d 0x12 s (by norm_num) (by norm_num)
  have hff := Test07.sx_read_reg_fifo d 0x12 s (by norm_num) (by norm_num)
  have hdrain := (Test07.sx_read_rx_data d A N (Test07.lora_read_reg (sxDev d) 0x12 s).1
    (by rw [hregs]; exact hA) (by rw [hregs]; exact hN) hAb hNb).2
  have hmain : (Test07.ISR_PCINT0_vect (sxDev d) PINB s).uart
      = s.uart ++ (List.range N).map (fun i => s.chip.fifo ((A + i) % 256)) ++ [0x0D, 0x0A] := by
    simp only [Test07.ISR_PCINT0_vect, Test07.lora_check_rx_done_and_read,
      Test07.lora_check_rx_done, hpin, hflag, hdone, if_false]
    simp only [Nat.one_ne_zero, if_false]
    rw [hdrain, hff, Test07.read_reg_uart]
    congr 2
    apply List.map_congr_left
    intro i _
    exact Nat.mod_eq_of_lt (hfifo _)
  refine ⟨hmain, ?_⟩
  intro h1 hL
  rw [hmain, h1]
  have hA2 : A % 256 = A := Nat.mod_eq_of_lt hAb
  simp [List.range_succ, hA2, hL]

/-- C5 witness: pin high, receive-done set, the one-byte packet 'L'. -/
theorem C5_rx_sink_witness :
    (2 &&& Test07.LORA_RX_DONE ≠ 0
      ∧ (mcu0 sxPacketL).chip.regs 0x12 = 0x40 ∧ 0x40 < 256 ∧ 0x40 &&& 0x40 ≠ 0
      ∧ (mcu0 sxPacketL).chip.regs 0x10 = 0 ∧ (mcu0 sxPacketL).chip.regs 0x13 = 1
      ∧ 0 < 256 ∧ 1 < 256 ∧ ∀ a, (mcu0 sxPacketL).chip.fifo a < 256)
    ∧ ((Test07.ISR_PCINT0_vect (sxDev (fun _ => 0)) 2 (mcu0 sxPacketL)).uart
        = (mcu0 sxPacketL).uart
          ++ (List.range 1).map (fun i => (mcu0 sxPacketL).chip.fifo ((0 + i) % 256))
          ++ [0x0D, 0x0A]
    ∧ (1 = 1 → (mcu0 sxPacketL).chip.fifo 0 = 0x4C →
        (Test07.ISR_PCINT0_vect (sxDev (fun _ => 0)) 2 (mcu0 sxPacketL)).uart
          = (mcu0 sxPacketL).uart ++ [0x4C, 0x0D, 0x0A])) :=
  ⟨⟨by decide, rfl, by decide, by decide, rfl, rfl, by decide, by decide,
      fun _ => by simp [mcu0, sxPacketL]⟩,
   C5_rx_sink (fun _ => 0) 2 0x40 0 1 (mcu0 sxPacketL) (by decide) rfl (by decide) (by decide)
     rfl rfl (by decide) (by decide) (fun _ => by simp [mcu0, sxPacketL])⟩


/-! ## The transmit cycle -/

namespace Test08

theorem p_str_loop_bus {σ : Type} (str : List Nat) :
    ∀ s : Mcu σ, (p_str_loop str s).bus = s.bus := by
  induction str with
  | nil => intro s; rfl
  | cons c cs ih =>
    intro s
    by_cases h : c = 0
    · simp [p_str_loop, h]
    · simp [p_str_loop, h, ih, uart_tx, store_UDR0]

theorem p_str_loop_chip {σ : Type} (str : List Nat) :
    ∀ s : Mcu σ, (p_str_loop str s).chip = s.chip := by
  induction str with
  | nil => intro s; rfl
  | cons c cs ih =>
    intro s
    by_cases h : c = 0
    · simp [p_str_loop, h]
    · simp [p_str_loop, h, ih, uart_tx, store_UDR0]

theorem p_line_bus {σ : Type} (pp : Option (List Nat)) (s : Mcu σ) :
    (p_line pp s).bus = s.bus := by
  cases pp <;> simp [p_line, p_str, p_str_loop_bus]

theorem p_line_chip {σ : Type} (pp : Option (List Nat)) (s : Mcu σ) :
    (p_line pp s).chip = s.chip := by
  cases pp <;> simp [p_line, p_str, p_str_loop_chip]

/-- One evaluation of the loop condition of `f_tx`, pin low: the flags are not
read and the loop body runs. -/
theorem wait_step_pin_low {σ : Type} (dev : Slave σ) (w : Wake σ) (ws : List (Wake σ))
    (s : Mcu σ) (h : w.PINB &&& LORA_RX_TX_DONE = 0) :
    f_tx_wait dev (w :: ws) s
      = f_tx_wait dev ws (sleep_cpu (p_line (some [0x54, 0x58, 0x20, 0x43, 0x68, 0x65, 0x63, 0x6B])
          { s with chip := w.evolve s.chip })) := by
  simp [f_tx_wait, h]

/-- One evaluation of the loop condition, pin high and transmit-done clear. -/
theorem wait_step_flag_clear {σ : Type} (dev : Slave σ) (w : Wake σ) (ws : List (Wake σ))
    (s : Mcu σ) (h : w.PINB &&& LORA_RX_TX_DONE ≠ 0)
    (hf : 0x08 &&& (lora_read_reg dev 0x12 { s with chip := w.evolve s.chip }).2 = 0) :
    f_tx_wait dev (w :: ws) s
      = f_tx_wait dev ws (sleep_cpu (p_line (some [0x54, 0x58, 0x20, 0x43, 0x68, 0x65, 0x63, 0x6B])
          (lora_read_reg dev 0x12 { s with chip := w.evolve s.chip }).1)) := by
  simp [f_tx_wait, h, lora_check_tx_done, hf]

/-- One evaluation of the loop condition, pin high and transmit-done set. -/
theorem wait_step_done {σ : Type} (dev : Slave σ) (w : Wake σ) (ws : List (Wake σ))
    (s : Mcu σ) (h : w.PINB &&& LORA_RX_TX_DONE ≠ 0)
    (hf : 0x08 &&& (lora_read_reg dev 0x12 { s with chip := w.evolve s.chip }).2 ≠ 0) :
    f_tx_wait dev (w :: ws) s
      = some (lora_read_reg dev 0x12 { s with chip := w.evolve s.chip }).1 := by
  simp [f_tx_wait, h, lora_check_tx_done, hf]

theorem regOps_check_read {σ : Type} (dev : Slave σ) (s : Mcu σ) :
    regOps (lora_read_reg dev 0x12 s).1.bus
      = regOps s.bus ++ [RegOp.read 0x12 [(lora_read_reg dev 0x12 s).2]] := by
  rw [read_reg_eq, Test07.regOps_read_reg dev 0x12 s (by norm_num)]

/-- Leaving the wait loop: it happens at one of the supplied evaluations, the
pin is high there, the flags read there have transmit-done set, the loop was
not left at an earlier evaluation, and no register was written while waiting. -/
theorem wait_exit {σ : Type} (dev : Slave σ) (wakes : List (Wake σ)) :
    ∀ (s s1 : Mcu σ), f_tx_wait dev wakes s = some s1 →
      ∃ (pre : List (Wake σ)) (w : Wake σ) (post : List (Wake σ)) (s0 : Mcu σ) (v : Nat),
        wakes = pre ++ w :: post
        ∧ f_tx_wait dev pre s = none
        ∧ w.PINB &&& LORA_RX_TX_DONE ≠ 0
        ∧ 0x08 &&& v ≠ 0
        ∧ regOps s1.bus = regOps s0.bus ++ [RegOp.read 0x12 [v]]
        ∧ writesOf (regOps s0.bus) = writesOf (regOps s.bus)
        ∧ writesOf (regOps s1.bus) = writesOf (regOps s.bus) := by
  induction wakes with
  | nil => intro s s1 h; simp [f_tx_wait] at h
  | cons w ws ih =>
    intro s s1 h
    by_cases hp : w.PINB &&& LORA_RX_TX_DONE = 0
    · rw [wait_step_pin_low dev w ws s hp] at h
      obtain ⟨pre, w1, post, s0, v, e1, e2, e3, e4, e5, e6, e7⟩ := ih _ _ h
      refine ⟨w :: pre, w1, post, s0, v, by simp [e1], ?_, e3, e4, e5, ?_, ?_⟩
      · rw [wait_step_pin_low dev w pre s hp]; exact e2
      · rw [e6]; simp [sleep_cpu, p_line_bus]
      · rw [e7]; simp [sleep_cpu, p_line_bus]
    · by_cases hf : 0x08 &&& (lora_read_reg dev 0x12 { s with chip := w.evolve s.chip }).2 = 0
      · rw [wait_step_flag_clear dev w ws s hp hf] at h
        obtain ⟨pre, w1, post, s0, v, e1, e2, e3, e4, e5, e6, e7⟩ := ih _ _ h
        have hb : writesOf (regOps (sleep_cpu (p_line
            (some [0x54, 0x58, 0x20, 0x43, 0x68, 0x65, 0x63, 0x6B])
            (lora_read_reg dev 0x12 { s with chip := w.evolve s.chip }).1)).bus)
            = writesOf (regOps s.bus) := by
          simp only [sleep_cpu, p_line_bus]
          rw [regOps_check_read, writesOf_append]
          simp [writesOf]
        refine ⟨w :: pre, w1, post, s0, v, by simp [e1], ?_, e3, e4, e5, ?_, ?_⟩
        · rw [wait_step_flag_clear dev w pre s hp hf]; exact e2
        · rw [e6, hb]
        · rw [e7, hb]
      · rw [wait_step_done dev w ws s hp hf] at h
        have hs1 : s1 = (lora_read_reg dev 0x12 { s with chip := w.evolve s.chip }).1 :=
          (Option.some.inj h).symm
        refine ⟨[], w, ws, { s with chip := w.evolve s.chip }, _, rfl, rfl, hp, hf, ?_, rfl, ?_⟩
        · rw [hs1, regOps_check_read]
        · rw [hs1, regOps_check_read, writesOf_append]
          simp [writesOf]

/-- With a single evaluation available, the loop ends exactly when the pin is
high and the flags read has transmit-done set. -/
theorem wait_one {σ : Type} (dev : Slave σ) (w : Wake σ) (u : Mcu σ) :
    (f_tx_wait dev [w] u).isSome = true ↔
      (w.PINB &&& LORA_RX_TX_DONE ≠ 0
        ∧ 0x08 &&& (lora_read_reg dev 0x12 { u with chip := w.evolve u.chip }).2 ≠ 0) := by
  by_cases hp : w.PINB &&& LORA_RX_TX_DONE = 0
  · rw [wait_step_pin_low dev w [] u hp]
    simp [f_tx_wait, hp]
  · by_cases hf : 0x08 &&& (lora_read_reg dev 0x12 { u with chip := w.evolve u.chip }).2 = 0
    · rw [wait_step_flag_clear dev w [] u hp hf]
      simp [f_tx_wait, hf]
    · rw [wait_step_done dev w [] u hp hf]
      simp [hp, hf]

theorem f_tx_of_done {σ : Type} (dev : Slave σ) (wakes : List (Wake σ)) (s s1 : Mcu σ)
    (h : f_tx_until_done dev wakes s = some s1) :
    f_tx dev wakes s = some (lora_set_sleep_mode dev (lora_reset_irq dev
      (p_line (some [0x54, 0x58, 0x20, 0x44, 0x6F, 0x6E, 0x65]) s1))) := by
  simp [f_tx, h]

end Test08

/-! ## C6: after the transmit wait -/

/-- C6: whenever the wait loop of `f_tx` ends, `f_tx` returns, and what it still
puts on the bus is exactly the write of 0xFF to the flags register 0x12 followed
by the write of 0x88, low three bits 000 (Sleep), to the mode register 0x01; on
the transceiver model, whose flags are cleared by writing ones, the flags
register is 0 and reads back 0 afterwards and the mode bits are 000. -/
theorem C6_tx_done {σ : Type} (dev : Slave σ) (wakes : List (Test08.Wake σ)) (s s1 : Mcu σ)
    (d : Nat → Nat) (wakesX : List (Test08.Wake Sx)) (t t1 : Mcu Sx)
    (h : Test08.f_tx_until_done dev wakes s = some s1)
    (ht : Test08.f_tx_until_done (sxDev d) wakesX t = some t1) :
    (∃ s2 m0 m1 m2 m3, Test08.f_tx dev wakes s = some s2
      ∧ s2.bus = s1.bus ++
          [BusEvent.nss false, BusEvent.xfer 0x92 m0, BusEvent.xfer 0xFF m1, BusEvent.nss true,
           BusEvent.nss false, BusEvent.xfer 0x81 m2, BusEvent.xfer 0x88 m3, BusEvent.nss true]
      ∧ regOps s2.bus = regOps s1.bus ++ [RegOp.write 0x12 [0xFF], RegOp.write 0x01 [0x88]])
    ∧ 0x88 % 8 = 0
    ∧ (∃ t2, Test08.f_tx (sxDev d) wakesX t = some t2
      ∧ t2.chip.regs 0x12 = 0
      ∧ (Test08.lora_read_reg (sxDev d) 0x12 t2).2 = 0
      ∧ t2.chip.regs 0x01 % 8 = 0) := by
  refine ⟨?_, by norm_num, ?_⟩
  · obtain ⟨m0, m1, hb1⟩ := Test07.write_reg_bus dev 0x12 0xFF
      (Test08.p_line (some [0x54, 0x58, 0x20, 0x44, 0x6F, 0x6E, 0x65]) s1)
    obtain ⟨m2, m3, hb2⟩ := Test07.write_reg_bus dev 0x01 0x88
      (Test07.lora_write_reg dev 0x12 0xFF
        (Test08.p_line (some [0x54, 0x58, 0x20, 0x44, 0x6F, 0x6E, 0x65]) s1))
    refine ⟨_, m0, m1, m2, m3, Test08.f_tx_of_done dev wakes s s1 h, ?_, ?_⟩
    · simp only [Test08.lora_set_sleep_mode, Test08.lora_reset_irq, Test08.write_reg_eq]
      rw [hb2, hb1, Test08.p_line_bus]
      simp
    · simp only [Test08.lora_set_sleep_mode, Test08.lora_reset_irq, Test08.write_reg_eq]
      rw [Test07.regOps_write_reg, Test07.regOps_write_reg]
      simp only [regOps, Test08.p_line_bus]
      simp
  · refine ⟨_, Test08.f_tx_of_done (sxDev d) wakesX t t1 ht, ?_⟩
    have hregs : (Test08.lora_set_sleep_mode (sxDev d) (Test08.lora_reset_irq (sxDev d)
        (Test08.p_line (some [0x54, 0x58, 0x20, 0x44, 0x6F, 0x6E, 0x65]) t1))).chip.regs
        = setReg (setReg t1.chip.regs 0x12 0) 0x01 0x88 := by
      simp only [Test08.lora_set_sleep_mode, Test08.lora_reset_irq, Test08.write_reg_eq]
      rw [Test07.sx_write_reg_regs _ _ _ _ (by norm_num) (by norm_num) (by norm_num),
        Test07.sx_write_flags_regs, Test08.p_line_chip]
      simp
    refine ⟨?_, ?_, ?_⟩
    · rw [hregs]; simp [setReg]
    · rw [Test08.read_reg_eq, Test07.sx_read_reg_val _ _ _ (by norm_num) (by norm_num), hregs]
      simp [setReg]
    · rw [hregs]; simp [setReg]

/-- C6 witness: the transmit cycle on the transceiver model with three
evaluations of the wait condition, the third one finding the transmission
done. -/
theorem C6_tx_done_witness :
    ∃ s1, Test08.f_tx_until_done (sxDev (fun _ => 0)) txWakes (mcu0 sx0) = some s1
    ∧ ((∃ s2 m0 m1 m2 m3, Test08.f_tx (sxDev (fun _ => 0)) txWakes (mcu0 sx0) = some s2
      ∧ s2.bus = s1.bus ++
          [BusEvent.nss false, BusEvent.xfer 0x92 m0, BusEvent.xfer 0xFF m1, BusEvent.nss true,
           BusEvent.nss false, BusEvent.xfer 0x81 m2, BusEvent.xfer 0x88 m3, BusEvent.nss true]
      ∧ regOps s2.bus = regOps s1.bus ++ [RegOp.write 0x12 [0xFF], RegOp.write 0x01 [0x88]])
    ∧ 0x88 % 8 = 0
    ∧ (∃ t2, Test08.f_tx (sxDev (fun _ => 0)) txWakes (mcu0 sx0) = some t2
      ∧ t2.chip.regs 0x12 = 0
      ∧ (Test08.lora_read_reg (sxDev (fun _ => 0)) 0x12 t2).2 = 0
      ∧ t2.chip.regs 0x01 % 8 = 0)) :=
  ⟨_, rfl, C6_tx_done (sxDev (fun _ => 0)) txWakes (mcu0 sx0) _ (fun _ => 0) txWakes
    (mcu0 sx0) _ rfl rfl⟩

/-! ## C8: the condition that ends the transmit wait -/

/-- C8: in `f_tx`, at every evaluation of the wait condition the loop is left if
and only if the DIO0 pin (bit `PB1` of PINB) reads high and bit 3 (0x08) of the
value read from the flags register 0x12 is set; otherwise the body runs
("TX Check", `sleep_cpu`) and the next wake-up is awaited.  When `f_tx`
returns, the loop was left at one of the evaluations, not at an earlier one,
both conditions held there, nothing was written to the radio between the end of
the configuration and that evaluation, and the flags-clear and Sleep writes
follow the flags read of that evaluation. -/
theorem C8_tx_wait {σ : Type} (dev : Slave σ) (wakes : List (Test08.Wake σ)) (s s2 : Mcu σ)
    (h : Test08.f_tx dev wakes s = some s2) :
    Test08.LORA_RX_TX_DONE = 2 ^ PB1
    ∧ (∀ (w : Test08.Wake σ) (ws : List (Test08.Wake σ)) (u : Mcu σ),
        ((Test08.f_tx_wait dev [w] u).isSome = true ↔
          (w.PINB &&& Test08.LORA_RX_TX_DONE ≠ 0
            ∧ 0x08 &&& (Test08.lora_read_reg dev 0x12 { u with chip := w.evolve u.chip }).2 ≠ 0))
        ∧ (w.PINB &&& Test08.LORA_RX_TX_DONE ≠ 0
            → 0x08 &&& (Test08.lora_read_reg dev 0x12 { u with chip := w.evolve u.chip }).2 ≠ 0
            → Test08.f_tx_wait dev (w :: ws) u
                = some (Test08.lora_read_reg dev 0x12 { u with chip := w.evolve u.chip }).1)
        ∧ (w.PINB &&& Test08.LORA_RX_TX_DONE = 0
            → Test08.f_tx_wait dev (w :: ws) u
                = Test08.f_tx_wait dev ws (Test08.sleep_cpu (Test08.p_line
                    (some [0x54, 0x58, 0x20, 0x43, 0x68, 0x65, 0x63, 0x6B])
                    { u with chip := w.evolve u.chip })))
        ∧ (w.PINB &&& Test08.LORA_RX_TX_DONE ≠ 0
            → 0x08 &&& (Test08.lora_read_reg dev 0x12 { u with chip := w.evolve u.chip }).2 = 0
            → Test08.f_tx_wait dev (w :: ws) u
                = Test08.f_tx_wait dev ws (Test08.sleep_cpu (Test08.p_line
                    (some [0x54, 0x58, 0x20, 0x43, 0x68, 0x65, 0x63, 0x6B])
                    (Test08.lora_read_reg dev 0x12 { u with chip := w.evolve u.chip }).1))))
    ∧ (∀ (d : Nat → Nat) (w : Test08.Wake Sx) (u : Mcu Sx),
        (Test08.f_tx_wait (sxDev d) [w] u).isSome = true ↔
          (w.PINB &&& Test08.LORA_RX_TX_DONE ≠ 0
            ∧ 0x08 &&& ((w.evolve u.chip).regs 0x12 % 256) ≠ 0))
    ∧ (∃ (sI : Mcu σ) (pre : List (Test08.Wake σ)) (w : Test08.Wake σ)
          (post : List (Test08.Wake σ)) (s0 : Mcu σ) (v : Nat),
        Test08.lora_init_tx dev s = some sI
        ∧ wakes = pre ++ w :: post
        ∧ Test08.f_tx_wait dev pre (Test08.p_line (some [0x54, 0x58]) sI) = none
        ∧ w.PINB &&& Test08.LORA_RX_TX_DONE ≠ 0
        ∧ 0x08 &&& v ≠ 0
        ∧ writesOf (regOps s0.bus) = writesOf (regOps sI.bus)
        ∧ regOps s2.bus = regOps s0.bus ++
            [RegOp.read 0x12 [v], RegOp.write 0x12 [0xFF], RegOp.write 0x01 [0x88]]) := by
  refine ⟨rfl, ?_, ?_, ?_⟩
  · intro w ws u
    exact ⟨Test08.wait_one dev w u, Test08.wait_step_done dev w ws u,
      Test08.wait_step_pin_low dev w ws u, Test08.wait_step_flag_clear dev w ws u⟩
  · intro d w u
    rw [Test08.wait_one (sxDev d) w u, Test08.read_reg_eq,
      Test07.sx_read_reg_val d 0x12 _ (by norm_num) (by norm_num)]
  · obtain ⟨sI, hI⟩ : ∃ sI, Test08.lora_init_tx dev s = some sI :=
      ⟨_, Test08.init_tx_unfold dev s⟩
    have hu : ∃ s1, Test08.f_tx_until_done dev wakes s = some s1 := by
      cases hc : Test08.f_tx_until_done dev wakes s with
      | none => simp [Test08.f_tx, hc] at h
      | some s1 => exact ⟨s1, rfl⟩
    obtain ⟨s1, h1⟩ := hu
    have hw : Test08.f_tx_wait dev wakes (Test08.p_line (some [0x54, 0x58]) sI) = some s1 := by
      simpa [Test08.f_tx_until_done, hI] using h1
    obtain ⟨pre, w, post, s0, v, e1, e2, e3, e4, e5, e6, _⟩ := Test08.wait_exit dev wakes _ _ hw
    have h2 := Test08.f_tx_of_done dev wakes s s1 h1
    rw [h] at h2
    have hs2 := Option.some.inj h2
    refine ⟨sI, pre, w, post, s0, v, hI, e1, e2, e3, e4, ?_, ?_⟩
    · rw [e6, Test08.p_line_bus]
    · rw [hs2]
      simp only [Test08.lora_set_sleep_mode, Test08.lora_reset_irq, Test08.write_reg_eq]
      rw [Test07.regOps_write_reg, Test07.regOps_write_reg]
      simp only [regOps, Test08.p_line_bus]
      have e5b : decode none s1.bus = decode none s0.bus ++ [RegOp.read 0x12 [v]] := e5
      rw [e5b]
      simp

/-- C8 witness: the transmit cycle on the transceiver model with three
evaluations of the wait condition (pin low; pin high, flag clear; pin high, flag
set). -/
theorem C8_tx_wait_witness :
    ∃ s2, Test08.f_tx (sxDev (fun _ => 0)) txWakes (mcu0 sx0) = some s2
    ∧ (Test08.LORA_RX_TX_DONE = 2 ^ PB1
    ∧ (∀ (w : Test08.Wake Sx) (ws : List (Test08.Wake Sx)) (u : Mcu Sx),
        ((Test08.f_tx_wait (sxDev (fun _ => 0)) [w] u).isSome = true ↔
          (w.PINB &&& Test08.LORA_RX_TX_DONE ≠ 0
            ∧ 0x08 &&& (Test08.lora_read_reg (sxDev (fun _ => 0)) 0x12 { u with chip := w.evolve u.chip }).2 ≠ 0))
        ∧ (w.PINB &&& Test08.LORA_RX_TX_DONE ≠ 0
            → 0x08 &&& (Test08.lora_read_reg (sxDev (fun _ => 0)) 0x12 { u with chip := w.evolve u.chip }).2 ≠ 0
            → Test08.f_tx_wait (sxDev (fun _ => 0)) (w :: ws) u
                = some (Test08.lora_read_reg (sxDev (fun _ => 0)) 0x12 { u with chip := w.evolve u.chip }).1)
        ∧ (w.PINB &&& Test08.LORA_RX_TX_DONE = 0
            → Test08.f_tx_wait (sxDev (fun _ => 0)) (w :: ws) u
                = Test08.f_tx_wait (sxDev (fun _ => 0)) ws (Test08.sleep_cpu (Test08.p_line
                    (some [0x54, 0x58, 0x20, 0x43, 0x68, 0x65, 0x63, 0x6B])
                    { u with chip := w.evolve u.chip })))
        ∧ (w.PINB &&& Test08.LORA_RX_TX_DONE ≠ 0
            → 0x08 &&& (Test08.lora_read_reg (sxDev (fun _ => 0)) 0x12 { u with chip := w.evolve u.chip }).2 = 0
            → Test08.f_tx_wait (sxDev (fun _ => 0)) (w :: ws) u
                = Test08.f_tx_wait (sxDev (fun _ => 0)) ws (Test08.sleep_cpu (Test08.p_line
                    (some [0x54, 0x58, 0x20, 0x43, 0x68, 0x65, 0x63, 0x6B])
                    (Test08.lora_read_reg (sxDev (fun _ => 0)) 0x12 { u with chip := w.evolve u.chip }).1))))
    ∧ (∀ (d : Nat → Nat) (w : Test08.Wake Sx) (u : Mcu Sx),
        (Test08.f_tx_wait (sxDev d) [w] u).isSome = true ↔
          (w.PINB &&& Test08.LORA_RX_TX_DONE ≠ 0
            ∧ 0x08 &&& ((w.evolve u.chip).regs 0x12 % 256) ≠ 0))
    ∧ (∃ (sI : Mcu Sx) (pre : List (Test08.Wake Sx)) (w : Test08.Wake Sx)
          (post : List (Test08.Wake Sx)) (s0 : Mcu Sx) (v : Nat),
        Test08.lora_init_tx (sxDev (fun _ => 0)) (mcu0 sx0) = some sI
        ∧ txWakes = pre ++ w :: post
        ∧ Test08.f_tx_wait (sxDev (fun _ => 0)) pre (Test08.p_line (some [0x54, 0x58]) sI) = none
        ∧ w.PINB &&& Test08.LORA_RX_TX_DONE ≠ 0
        ∧ 0x08 &&& v ≠ 0
        ∧ writesOf (regOps s0.bus) = writesOf (regOps sI.bus)
        ∧ regOps s2.bus = regOps s0.bus ++
            [RegOp.read 0x12 [v], RegOp.write 0x12 [0xFF], RegOp.write 0x01 [0x88]])) :=
  ⟨_, rfl, C8_tx_wait (sxDev (fun _ => 0)) txWakes (mcu0 sx0) _ rfl⟩

/-! ## C9: Sleep and the LoRa-mode bit -/

/-- C9 (as stated, refuted): in the transmitter configuration no write precedes
the first write that sets the LoRa-mode bit of register 0x01, so no Sleep write
is issued before it. -/
theorem C9_sleep_before_lora_counterexample :
    (Test08.lora_init_tx (sxDev (fun _ => 0)) (mcu0 sx0)).map
        (fun s1 => sleepBeforeLoRa (writesOf (regOps s1.bus))) = some false := by
  decide

namespace Avr

set_option maxRecDepth 100000 in
theorem sleep_keeps_bit7 : ∀ x, x < 256 → Nat.testBit x 7 = false →
    Nat.testBit ((0x00 ||| (0xF8 &&& x)) % 256) 7 = false := by
  decide

theorem sleepBefore_cons (a : Nat × List Nat) (T : List (Nat × List Nat))
    (h1 : setsLoRaBit a = false) (h2 : isSleepWrite a = true) :
    sleepBeforeLoRa (a :: T) = true := by
  simp [sleepBeforeLoRa, List.takeWhile, h1, h2]

theorem sleepNotAfter_cons (a : Nat × List Nat) (T : List (Nat × List Nat))
    (h2 : isSleepWrite a = true) : sleepNotAfterLoRa (a :: T) = true := by
  cases h1 : setsLoRaBit a with
  | false => simp [sleepNotAfterLoRa, sleepBefore_cons a T h1 h2]
  | true => simp [sleepNotAfterLoRa, List.find?, h1, h2]

end Avr

/-- C9 (amended): in both configuration sequences the first register write is a
Sleep write to register 0x01, so a Sleep write is issued no later than the
first write that sets the LoRa-mode bit.  In the receiver it is strictly earlier
whenever the value read back from 0x01 has bit 7 clear; in the transmitter the
Sleep write and the first write that sets bit 7 are one and the same write,
0x01 := 0x88. -/
theorem C9_sleep_not_after_lora {σ : Type} (dev : Slave σ) (s : Mcu σ) :
    (∃ x0 x1 L, regOps (Test07.lora_init dev s).bus = regOps s.bus ++
          (RegOp.reset :: RegOp.read 0x42 [x0] :: RegOp.read 0x01 [x1] :: L)
      ∧ (writesOf L).head? = some (0x01, [(0x00 ||| (0xF8 &&& x1)) % 256])
      ∧ isSleepWrite (0x01, [(0x00 ||| (0xF8 &&& x1)) % 256]) = true
      ∧ sleepNotAfterLoRa (writesOf L) = true
      ∧ (Nat.testBit x1 7 = false → sleepBeforeLoRa (writesOf L) = true))
    ∧ (∃ s1 L, Test08.lora_init_tx dev s = some s1 ∧ regOps s1.bus = regOps s.bus ++ L
      ∧ (writesOf L).head? = some (0x01, [0x88])
      ∧ isSleepWrite (0x01, [0x88]) = true ∧ setsLoRaBit (0x01, [0x88]) = true
      ∧ sleepNotAfterLoRa (writesOf L) = true
      ∧ sleepBeforeLoRa (writesOf L) = false) := by
  constructor
  · obtain ⟨x0, x1, x2, x3, x4, x5, x6, x7, x8, x9, x10, x11, h, h1, _, _⟩ :=
      Test07.init_ops dev s
    have hs : isSleepWrite (0x01, [(0x00 ||| (0xF8 &&& x1)) % 256]) = true := by
      have h0 := sleep_low_bits x1 h1
      simpa [isSleepWrite] using h0
    refine ⟨x0, x1, _, h, ?_, hs, ?_, ?_⟩
    · simp [writesOf]
    · simp only [writesOf]
      exact sleepNotAfter_cons _ _ hs
    · intro hb
      simp only [writesOf]
      refine sleepBefore_cons _ _ ?_ hs
      have h0 := sleep_keeps_bit7 x1 h1 hb
      simpa [setsLoRaBit] using h0
  · obtain ⟨s1, h1, h2⟩ := Test08.init_tx_ops dev s
    refine ⟨s1, _, h1, h2, ?_, by decide, by decide, ?_, ?_⟩
    · simp [writesOf]
    · simp only [writesOf]
      exact sleepNotAfter_cons _ _ (by decide)
    · simp only [writesOf]
      decide

/-! ## C10: the address pointer and the FIFO data register -/

namespace Avr

theorem fifoGuarded_append (L1 L2 : List RegOp) (h2 : ∀ q, fifoGuarded q L2 = true) :
    ∀ p, fifoGuarded p L1 = true → fifoGuarded p (L1 ++ L2) = true := by
  induction L1 with
  | nil => intro p _; exact h2 p
  | cons o os ih =>
    intro p h
    cases o with
    | reset => exact ih _ h
    | read r vs =>
      by_cases hr : r = 0x00
      · simp only [List.cons_append, fifoGuarded, hr, if_true, Bool.and_eq_true] at h ⊢
        exact ⟨h.1, ih _ h.2⟩
      · simp only [List.cons_append, fifoGuarded, hr, if_false] at h ⊢
        exact ih _ h
    | write r vs =>
      by_cases hr : r = 0x00
      · simp only [List.cons_append, fifoGuarded, hr, if_true, Bool.and_eq_true] at h ⊢
        exact ⟨h.1, ih _ h.2⟩
      · simp only [List.cons_append, fifoGuarded, hr, if_false] at h ⊢
        exact ih _ h

end Avr

namespace Test07

/-- The register operations of one run of the pin-change handler on any slave:
none when the pin is low, the flags read when receive-done is clear, the flags
read and the drain otherwise. -/
theorem isr_ops {σ : Type} (dev : Slave σ) (PINB : Nat) (s : Mcu σ) :
    ∃ L, regOps (ISR_PCINT0_vect dev PINB s).bus = regOps s.bus ++ L
      ∧ (L = []
        ∨ (∃ v, L = [RegOp.read 0x12 [v]])
        ∨ (∃ v a n bs, L = [RegOp.read 0x12 [v], RegOp.read 0x10 [a], RegOp.write 0x0D [a],
              RegOp.read 0x13 [n], RegOp.read 0x00 bs, RegOp.write 0x12 [0xFF]]
            ∧ bs.length = n)) := by
  by_cases hp : PINB &&& LORA_RX_DONE = 0
  · exact ⟨[], by simp [ISR_PCINT0_vect, hp], Or.inl rfl⟩
  · by_cases hf : 0x40 &&& (lora_read_reg dev 0x12 s).2 = 0
    · refine ⟨_, ?_, Or.inr (Or.inl ⟨(lora_read_reg dev 0x12 s).2, rfl⟩)⟩
      simp only [ISR_PCINT0_vect, hp, if_false, lora_check_rx_done_and_read,
        lora_check_rx_done, hf, if_true]
      exact regOps_read_reg dev 0x12 s (by norm_num)
    · obtain ⟨a, n, bs, h1, _, h3⟩ := read_rx_data_ops dev (lora_read_reg dev 0x12 s).1
      refine ⟨_, ?_, Or.inr (Or.inr ⟨(lora_read_reg dev 0x12 s).2, a, n, bs, rfl, h3⟩)⟩
      simp only [ISR_PCINT0_vect, hp, if_false, lora_check_rx_done_and_read,
        lora_check_rx_done, hf, Nat.one_ne_zero]
      rw [h1, regOps_read_reg dev 0x12 s (by norm_num)]
      simp

theorem isr_guarded {σ : Type} (dev : Slave σ) (PINB : Nat) (s : Mcu σ) :
    ∃ L, regOps (ISR_PCINT0_vect dev PINB s).bus = regOps s.bus ++ L
      ∧ ∀ q, fifoGuarded q L = true := by
  obtain ⟨L, h, hL⟩ := isr_ops dev PINB s
  refine ⟨L, h, ?_⟩
  intro q
  rcases hL with hL | ⟨v, hL⟩ | ⟨v, a, n, bs, hL, _⟩ <;> subst hL <;> simp [fifoGuarded]

theorem handle_irqs_guarded {σ : Type} (dev : Slave σ) (irqs : List (Irq σ)) :
    ∀ s : Mcu σ, ∃ L, regOps (handle_irqs dev irqs s).bus = regOps s.bus ++ L
      ∧ ∀ q, fifoGuarded q L = true := by
  induction irqs with
  | nil => intro s; exact ⟨[], by simp [handle_irqs], fun q => rfl⟩
  | cons q qs ih =>
    intro s
    obtain ⟨L1, h1, g1⟩ := isr_guarded dev q.PINB { s with chip := q.evolve s.chip }
    obtain ⟨L2, h2, g2⟩ := ih (ISR_PCINT0_vect dev q.PINB { s with chip := q.evolve s.chip })
    refine ⟨L1 ++ L2, ?_, fun p => fifoGuarded_append L1 L2 g2 p (g1 p)⟩
    simp only [handle_irqs]
    rw [h2, h1, List.append_assoc]

end Test07

/-- C10 (as stated, refuted): the transmitter configuration accesses the FIFO
data register 0x00 (the payload write) with no write to the address pointer
0x0D since the reset pulse. -/
theorem C10_fifo_pointer_counterexample :
    (Test08.lora_init_tx (sxDev (fun _ => 0)) (mcu0 sx0)).map
        (fun s1 => fifoGuarded false (regOps s1.bus)) = some false := by
  decide

/-- C10 (amended): in the receiver, configuration followed by any sequence of
handled pin-change interrupts, every access to the FIFO data register 0x00 is
preceded since the last reset pulse by a write to the address pointer 0x0D, and
each drain writes 0x0D itself right before its burst.  The transmitter
configuration accesses register 0x00 exactly once, the write of the payload
byte 0x4C, and never writes 0x0D. -/
theorem C10_fifo_pointer {σ : Type} (dev : Slave σ) (s : Mcu σ) (irqs : List (Test07.Irq σ)) :
    (∃ L, regOps (Test07.main dev irqs s).bus = regOps s.bus ++ L ∧ fifoGuarded false L = true)
    ∧ (∃ a n bs, regOps (Test07.lora_read_rx_data dev s).bus = regOps s.bus ++
        [RegOp.read 0x10 [a], RegOp.write 0x0D [a], RegOp.read 0x13 [n],
         RegOp.read 0x00 bs, RegOp.write 0x12 [0xFF]])
    ∧ (∃ s1 L, Test08.lora_init_tx dev s = some s1 ∧ regOps s1.bus = regOps s.bus ++ L
      ∧ L.filter isFifoAccess = [RegOp.write 0x00 [0x4C]]
      ∧ L.filter isPtrWrite = []
      ∧ fifoGuarded false L = false) := by
  refine ⟨?_, ?_, ?_⟩
  · obtain ⟨x0, x1, x2, x3, x4, x5, x6, x7, x8, x9, x10, x11, h, _⟩ := Test07.init_ops dev s
    obtain ⟨L1, hL1, g1⟩ : ∃ L1, regOps (Test07.lora_init dev s).bus = regOps s.bus ++ L1
        ∧ fifoGuarded false L1 = true := ⟨_, h, by simp [fifoGuarded]⟩
    obtain ⟨L2, h2, g2⟩ := Test07.handle_irqs_guarded dev irqs (Test07.lora_init dev s)
    refine ⟨L1 ++ L2, ?_, fifoGuarded_append L1 L2 g2 false g1⟩
    simp only [Test07.main]
    rw [h2, hL1, List.append_assoc]
  · obtain ⟨a, n, bs, h1, _, _⟩ := Test07.read_rx_data_ops dev s
    exact ⟨a, n, bs, h1⟩
  · obtain ⟨s1, h1, h2⟩ := Test08.init_tx_ops dev s
    exact ⟨s1, _, h1, h2, by decide, by decide, by decide⟩


/-! ## C11: the base addresses of the packet buffer -/

namespace Test07

theorem sx_write_reg_other (d : Nat → Nat) (reg val r : Nat) (s : Mcu Sx) (h : reg < 0x80)
    (h0 : reg ≠ 0) (hr : r ≠ reg) :
    (lora_write_reg (sxDev d) reg val s).chip.regs r = s.chip.regs r := by
  by_cases h12 : reg = 0x12
  · subst h12
    rw [sx_write_flags_regs]
    simp [setReg, hr]
  · rw [sx_write_reg_regs d reg val s h h0 h12]
    simp [setReg, hr]

theorem sx_update_reg_other (d : Nat → Nat) (reg mask val r : Nat) (s : Mcu Sx)
    (h : reg < 0x80) (h0 : reg ≠ 0) (hr : r ≠ reg) :
    (lora_update_reg (sxDev d) reg mask val s).chip.regs r = s.chip.regs r := by
  simp only [lora_update_reg]
  rw [sx_write_reg_other d reg _ r _ h h0 hr, sx_read_reg_regs d reg s h h0]

end Test07

/-- C11 (as stated, refuted): on a transceiver whose reset values of the two base
registers differ (0x80 and 0x00), both registers hold the same value after
`lora_init`. -/
theorem C11_base_addresses_counterexample :
    ¬ ((Test07.lora_init (sxDev sxDefaults) (mcu0 sx0)).chip.regs 0x0E
        ≠ (Test07.lora_init (sxDev sxDefaults) (mcu0 sx0)).chip.regs 0x0F) := by
  decide

/-- C11 (amended): on any slave `lora_init` writes the transmit-base register
0x0E exactly once and the receive-base register 0x0F exactly once, both times
the value 0x00; on the transceiver model both registers hold 0x00 afterwards,
so the transmit and the receive region start at the same buffer address. -/
theorem C11_base_addresses {σ : Type} (dev : Slave σ) (s : Mcu σ) (d : Nat → Nat)
    (t : Mcu Sx) :
    (∃ L, regOps (Test07.lora_init dev s).bus = regOps s.bus ++ L
      ∧ (writesOf L).filter isTxBaseWrite = [(0x0E, [0x00])]
      ∧ (writesOf L).filter isRxBaseWrite = [(0x0F, [0x00])])
    ∧ (Test07.lora_init (sxDev d) t).chip.regs 0x0E = 0x00
    ∧ (Test07.lora_init (sxDev d) t).chip.regs 0x0F = 0x00 := by
  refine ⟨?_, ?_, ?_⟩
  · obtain ⟨x0, x1, x2, x3, x4, x5, x6, x7, x8, x9, x10, x11, h, _⟩ := Test07.init_ops dev s
    refine ⟨_, h, ?_, ?_⟩
    · simp [writesOf, isTxBaseWrite]
    · simp [writesOf, isRxBaseWrite]
  · simp only [Test07.lora_init, Test07.lora_set_rx_cont_mode, Test07.lora_map_rx_to_dio0,
      Test07.lora_set_standby_mode, Test07.lora_set_low_data_optimize_on,
      Test07.lora_set_freq_434800000, Test07.lora_set_detection_threshold_for_sf_7to12,
      Test07.lora_set_detection_optimize_for_sf_7to12, Test07.lora_reset_rx_base_address,
      Test07.lora_reset_tx_base_address]
    rw [Test07.sx_update_reg_other _ _ _ _ _ _ (by norm_num) (by norm_num) (by norm_num),
      Test07.sx_write_reg_other _ _ _ _ _ (by norm_num) (by norm_num) (by norm_num),
      Test07.sx_update_reg_other _ _ _ _ _ _ (by norm_num) (by norm_num) (by norm_num),
      Test07.sx_update_reg_other _ _ _ _ _ _ (by norm_num) (by norm_num) (by norm_num),
      Test07.sx_write_reg_other _ _ _ _ _ (by norm_num) (by norm_num) (by norm_num),
      Test07.sx_write_reg_other _ _ _ _ _ (by norm_num) (by norm_num) (by norm_num),
      Test07.sx_write_reg_other _ _ _ _ _ (by norm_num) (by norm_num) (by norm_num),
      Test07.sx_write_reg_other _ _ _ _ _ (by norm_num) (by norm_num) (by norm_num),
      Test07.sx_write_reg_other _ _ _ _ _ (by norm_num) (by norm_num) (by norm_num),
      Test07.sx_write_reg_other _ _ _ _ _ (by norm_num) (by norm_num) (by norm_num),
      Test07.sx_write_reg_regs _ _ _ _ (by norm_num) (by norm_num) (by norm_num)]
    simp [setReg]
  · simp only [Test07.lora_init, Test07.lora_set_rx_cont_mode, Test07.lora_map_rx_to_dio0,
      Test07.lora_set_standby_mode, Test07.lora_set_low_data_optimize_on,
      Test07.lora_set_freq_434800000, Test07.lora_set_detection_threshold_for_sf_7to12,
      Test07.lora_set_detection_optimize_for_sf_7to12, Test07.lora_reset_rx_base_address]
    rw [Test07.sx_update_reg_other _ _ _ _ _ _ (by norm_num) (by norm_num) (by norm_num),
      Test07.sx_write_reg_other _ _ _ _ _ (by norm_num) (by norm_num) (by norm_num),
      Test07.sx_update_reg_other _ _ _ _ _ _ (by norm_num) (by norm_num) (by norm_num),
      Test07.sx_update_reg_other _ _ _ _ _ _ (by norm_num) (by norm_num) (by norm_num),
      Test07.sx_write_reg_other _ _ _ _ _ (by norm_num) (by norm_num) (by norm_num),
      Test07.sx_write_reg_other _ _ _ _ _ (by norm_num) (by norm_num) (by norm_num),
      Test07.sx_write_reg_other _ _ _ _ _ (by norm_num) (by norm_num) (by norm_num),
      Test07.sx_write_reg_other _ _ _ _ _ (by norm_num) (by norm_num) (by norm_num),
      Test07.sx_write_reg_other _ _ _ _ _ (by norm_num) (by norm_num) (by norm_num),
      Test07.sx_write_reg_regs _ _ _ _ (by norm_num) (by norm_num) (by norm_num)]
    simp [setReg]

/-! ## C12: the table loop of the transmitter -/

namespace Test08

/-- The loop on any table: entries whose address byte is not 0xFF are written in
order, whatever their value byte, and the loop ends at the first entry whose
address byte is 0xFF. -/
theorem init_tx_loop_stops {σ : Type} (dev : Slave σ) (es : List (Nat × Nat)) :
    ∀ (tail : List Nat) (s : Mcu σ), (∀ e ∈ es, e.1 ≠ 0xFF) →
      lora_init_tx_loop dev (blobOf es ++ 0xFF :: tail) s
        = some (List.foldl (fun t e => lora_write_reg dev e.1 e.2 t) s es) := by
  induction es with
  | nil =>
    intro tail s _
    cases tail <;> simp [blobOf, lora_init_tx_loop]
  | cons e es ih =>
    intro tail s h
    have he : e.1 ≠ 0xFF := h e (List.mem_cons_self _ _)
    have hes : ∀ x ∈ es, x.1 ≠ 0xFF := fun x hx => h x (List.mem_cons_of_mem _ hx)
    simp only [blobOf, List.cons_append, lora_init_tx_loop, he, if_false, List.foldl_cons]
    exact ih tail _ hes

end Test08

/-- C12: the table of `lora_init_tx` is twenty entries followed by the sentinel
(0xFF, 0xFF); every entry has an address in 0x00..0x7F, the first is
(0x01, 0x88), the last (0x01, 0x8B), and (0x09, 0xFF) is one of them.  On any
slave the loop terminates and issues, after the reset pulse, exactly one
register write per entry in table order.  On any table the loop writes the
entries whose address is not 0xFF, whatever their value byte, and ends at the
first address byte 0xFF. -/
theorem C12_tx_table {σ : Type} (dev : Slave σ) (s : Mcu σ) :
    Test08.tableEntries Test08.lora_tx_init_blob =
      [(0x01, 0x88), (0x06, 0x6C), (0x07, 0xB3), (0x08, 0x34), (0x0B, 0x0B), (0x0E, 0x00),
       (0x00, 0x4C), (0x1D, 0x23), (0x1E, 0xC4), (0x20, 0x00), (0x21, 0x06), (0x22, 0x01),
       (0x26, 0x0C), (0x31, 0xC3), (0x37, 0x0A), (0x39, 0x12), (0x40, 0x40), (0x4D, 0x87),
       (0x09, 0xFF), (0x01, 0x8B)]
    ∧ Test08.lora_tx_init_blob
        = Test08.blobOf (Test08.tableEntries Test08.lora_tx_init_blob) ++ [0xFF, 0xFF]
    ∧ (Test08.tableEntries Test08.lora_tx_init_blob).length = 20
    ∧ (Test08.tableEntries Test08.lora_tx_init_blob).head? = some (0x01, 0x88)
    ∧ (Test08.tableEntries Test08.lora_tx_init_blob).getLast? = some (0x01, 0x8B)
    ∧ (0x09, 0xFF) ∈ Test08.tableEntries Test08.lora_tx_init_blob
    ∧ (∀ e ∈ Test08.tableEntries Test08.lora_tx_init_blob, e.1 < 0x80)
    ∧ (∃ s1, Test08.lora_init_tx dev s = some s1
        ∧ s1 = List.foldl (fun t e => Test08.lora_write_reg dev e.1 e.2 t)
            (Test08.lora_reset_pin dev s) (Test08.tableEntries Test08.lora_tx_init_blob)
        ∧ regOps s1.bus = regOps s.bus ++ RegOp.reset ::
            (Test08.tableEntries Test08.lora_tx_init_blob).map (fun e => RegOp.write e.1 [e.2])
        ∧ writesOf (regOps s1.bus) = writesOf (regOps s.bus) ++
            (Test08.tableEntries Test08.lora_tx_init_blob).map (fun e => (e.1, [e.2])))
    ∧ (∀ (es : List (Nat × Nat)) (tail : List Nat) (u : Mcu σ), (∀ e ∈ es, e.1 ≠ 0xFF) →
        Test08.lora_init_tx_loop dev (Test08.blobOf es ++ 0xFF :: tail) u
          = some (List.foldl (fun t e => Test08.lora_write_reg dev e.1 e.2 t) u es)) := by
  refine ⟨by decide, by decide, by decide, by decide, by decide, by decide, by decide, ?_,
    Test08.init_tx_loop_stops dev⟩
  obtain ⟨s1, h1, h2⟩ := Test08.init_tx_ops dev s
  have h3 := Test08.init_tx_unfold dev s
  rw [h1] at h3
  refine ⟨s1, h1, Option.some.inj h3, ?_, ?_⟩
  · rw [h2]
    rfl
  · rw [h2, writesOf_append]
    rfl

/-! ## C14: the receive interrupt leaves the mode register alone -/

namespace Test07

theorem isr_writes {σ : Type} (dev : Slave σ) (PINB : Nat) (s : Mcu σ) :
    ∃ L, regOps (ISR_PCINT0_vect dev PINB s).bus = regOps s.bus ++ L
      ∧ (writesOf L).all isPtrOrFlagsWrite = true := by
  obtain ⟨L, h, hL⟩ := isr_ops dev PINB s
  refine ⟨L, h, ?_⟩
  rcases hL with hL | ⟨v, hL⟩ | ⟨v, a, n, bs, hL, _⟩ <;> subst hL <;>
    simp [writesOf, isPtrOrFlagsWrite]

theorem handle_irqs_writes {σ : Type} (dev : Slave σ) (irqs : List (Irq σ)) :
    ∀ s : Mcu σ, ∃ L, regOps (handle_irqs dev irqs s).bus = regOps s.bus ++ L
      ∧ (writesOf L).all isPtrOrFlagsWrite = true := by
  induction irqs with
  | nil => intro s; exact ⟨[], by simp [handle_irqs], rfl⟩
  | cons q qs ih =>
    intro s
    obtain ⟨L1, h1, g1⟩ := isr_writes dev q.PINB { s with chip := q.evolve s.chip }
    obtain ⟨L2, h2, g2⟩ := ih (ISR_PCINT0_vect dev q.PINB { s with chip := q.evolve s.chip })
    refine ⟨L1 ++ L2, ?_, ?_⟩
    · simp only [handle_irqs]
      rw [h2, h1, List.append_assoc]
    · rw [writesOf_append, List.all_append, g1, g2]
      rfl

theorem sx_init_mode (d : Nat → Nat) (t : Mcu Sx) :
    (lora_init (sxDev d) t).chip.regs 0x01 % 8 = 0b101 := by
  simp only [lora_init, lora_set_rx_cont_mode, lora_update_reg]
  rw [sx_write_reg_regs _ _ _ _ (by norm_num) (by norm_num) (by norm_num)]
  simp only [setReg, if_true]
  exact rx_cont_low_bits _ (read_reg_lt _ _ _)

theorem sx_burstChip_regs (d : Nat → Nat) (r : Nat) (hr : r ≠ 0x0D) (n : Nat) :
    ∀ c : Sx, c.phase = Phase.data false 0 →
      (burstChip (sxDev d) n c).regs r = c.regs r := by
  induction n with
  | zero => intro c _; rfl
  | succ n ih =>
    intro c hc
    have hstep : (sxDev d).exchange c 0
        = ({ c with regs := setReg c.regs 0x0D ((c.regs 0x0D + 1) % 256) },
            c.fifo (c.regs 0x0D % 256)) := by
      simp [sxDev, hc]
    rw [burstChip, hstep]
    simp only []
    rw [ih { c with regs := setReg c.regs 0x0D ((c.regs 0x0D + 1) % 256) } hc]
    simp [setReg, hr]

/-- The drain on the transceiver model changes no register other than the
address pointer 0x0D and the flags 0x12. -/
theorem sx_read_rx_data_other (d : Nat → Nat) (r : Nat) (s : Mcu Sx)
    (hD : r ≠ 0x0D) (hF : r ≠ 0x12) :
    (lora_read_rx_data (sxDev d) s).chip.regs r = s.chip.regs r := by
  simp only [lora_read_rx_data, lora_get_rx_data_address, lora_set_fifo_buffer_address,
    lora_get_rx_data_len, lora_reset_irq_flags, uart_tx_chip]
  rw [sx_write_reg_other d 0x12 _ r _ (by norm_num) (by norm_num) hF]
  simp only [spi_chip_disable, drive_NSS, rx_loop_chip, spi_wait_write, store_SPDR,
    spi_chip_enable]
  have hsel : ∀ c : Sx, ((sxDev d).deselect c).regs = c.regs := fun c => rfl
  simp only [if_true, hsel, Bool.false_eq_true, if_false]
  rw [sx_burstChip_regs d r hD _ _ (by simp [sxDev])]
  have hx : ∀ c : Sx, ((sxDev d).exchange ((sxDev d).select c) (0 % 256)).1.regs = c.regs := by
    intro c
    simp [sxDev]
  rw [hx, sx_read_reg_regs d 0x13 _ (by norm_num) (by norm_num),
    sx_write_reg_other d 0x0D _ r _ (by norm_num) (by norm_num) hD,
    sx_read_reg_regs d 0x10 _ (by norm_num) (by norm_num)]

/-- One run of the handler on the transceiver model changes no register other
than 0x0D and 0x12. -/
theorem sx_isr_other (d : Nat → Nat) (PINB r : Nat) (s : Mcu Sx)
    (hD : r ≠ 0x0D) (hF : r ≠ 0x12) :
    (ISR_PCINT0_vect (sxDev d) PINB s).chip.regs r = s.chip.regs r := by
  by_cases hp : PINB &&& LORA_RX_DONE = 0
  · simp [ISR_PCINT0_vect, hp]
  · by_cases hf : 0x40 &&& (lora_read_reg (sxDev d) 0x12 s).2 = 0
    · simp only [ISR_PCINT0_vect, hp, if_false, lora_check_rx_done_and_read,
        lora_check_rx_done, hf, if_true]
      rw [sx_read_reg_regs d 0x12 s (by norm_num) (by norm_num)]
    · simp only [ISR_PCINT0_vect, hp, if_false, lora_check_rx_done_and_read,
        lora_check_rx_done, hf, Nat.one_ne_zero]
      rw [sx_read_rx_data_other d r _ hD hF,
        sx_read_reg_regs d 0x12 s (by norm_num) (by norm_num)]

theorem sx_handle_irqs_mode (d : Nat → Nat) (irqs : List (Irq Sx))
    (henv : ∀ q ∈ irqs, ∀ c : Sx, (q.evolve c).regs 0x01 = c.regs 0x01) :
    ∀ s : Mcu Sx, (handle_irqs (sxDev d) irqs s).chip.regs 0x01 = s.chip.regs 0x01 := by
  induction irqs with
  | nil => intro s; rfl
  | cons q qs ih =>
    intro s
    have hq := henv q (List.mem_cons_self _ _)
    have hqs : ∀ x ∈ qs, ∀ c : Sx, (x.evolve c).regs 0x01 = c.regs 0x01 :=
      fun x hx => henv x (List.mem_cons_of_mem _ hx)
    simp only [handle_irqs]
    rw [ih hqs, sx_isr_other d q.PINB 0x01 _ (by norm_num) (by norm_num)]
    exact hq s.chip

end Test07

/-- C14: on any slave, one run of the pin-change handler, whatever the pin
level, the flags and the packet, writes no register other than 0x0D and 0x12,
in particular not the mode register 0x01; so after `lora_init` and any sequence
of handled interrupts the last write to 0x01 is still the receive-continuous
write of `lora_init`.  On the transceiver model a run of the handler leaves
register 0x01 as it is, and as long as the radio does not change that register
by itself, its low three bits are 0b101, not 000, after `lora_init` and any
sequence of handled interrupts. -/
theorem C14_rx_mode_stays {σ : Type} (dev : Slave σ) (s : Mcu σ) (PINB : Nat)
    (irqs : List (Test07.Irq σ)) (d : Nat → Nat) (t : Mcu Sx) (irqsX : List (Test07.Irq Sx))
    (henv : ∀ q ∈ irqsX, ∀ c : Sx, (q.evolve c).regs 0x01 = c.regs 0x01) :
    (∃ L, regOps (Test07.ISR_PCINT0_vect dev PINB s).bus = regOps s.bus ++ L
      ∧ (writesOf L).all isPtrOrFlagsWrite = true
      ∧ (writesOf L).filter isModeWrite = [])
    ∧ (∃ L v, regOps (Test07.main dev irqs s).bus = regOps s.bus ++ L
      ∧ ((writesOf L).filter isModeWrite).getLast? = some (0x01, [v])
      ∧ v % 8 = 0b101)
    ∧ (Test07.ISR_PCINT0_vect (sxDev d) PINB t).chip.regs 0x01 = t.chip.regs 0x01
    ∧ (Test07.main (sxDev d) irqsX t).chip.regs 0x01 % 8 = 0b101
    ∧ (Test07.main (sxDev d) irqsX t).chip.regs 0x01 % 8 ≠ 0 := by
  have hnone : ∀ L : List (Nat × List Nat), L.all isPtrOrFlagsWrite = true →
      L.filter isModeWrite = [] := by
    intro L hL
    rw [List.filter_eq_nil_iff]
    intro w hw
    have h1 := List.all_eq_true.mp hL w hw
    simp only [isPtrOrFlagsWrite, Bool.or_eq_true, beq_iff_eq] at h1
    simp only [isModeWrite, beq_iff_eq]
    omega
  have hmode : (Test07.main (sxDev d) irqsX t).chip.regs 0x01 % 8 = 0b101 := by
    simp only [Test07.main]
    rw [Test07.sx_handle_irqs_mode d irqsX henv]
    exact Test07.sx_init_mode d t
  refine ⟨?_, ?_, Test07.sx_isr_other d PINB 0x01 t (by norm_num) (by norm_num), hmode, ?_⟩
  · obtain ⟨L, h, hL⟩ := Test07.isr_writes dev PINB s
    exact ⟨L, h, hL, hnone _ hL⟩
  · obtain ⟨x0, x1, x2, x3, x4, x5, x6, x7, x8, x9, x10, x11, h, _, _, h11⟩ :=
      Test07.init_ops dev s
    obtain ⟨L1, hL1, g1⟩ : ∃ L1, regOps (Test07.lora_init dev s).bus = regOps s.bus ++ L1
        ∧ ((writesOf L1).filter isModeWrite).getLast?
            = some (0x01, [(0x05 ||| (0xF8 &&& x11)) % 256]) :=
      ⟨_, h, by simp [writesOf, isModeWrite]⟩
    obtain ⟨L2, h2, g2⟩ := Test07.handle_irqs_writes dev irqs (Test07.lora_init dev s)
    refine ⟨L1 ++ L2, (0x05 ||| (0xF8 &&& x11)) % 256, ?_, ?_, rx_cont_low_bits x11 h11⟩
    · simp only [Test07.main]
      rw [h2, hL1, List.append_assoc]
    · rw [writesOf_append, List.filter_append, hnone _ g2, List.append_nil]
      exact g1
  · rw [hmode]
    norm_num

/-- C14 witness: the receiver on the transceiver model handling a packet, a
spurious interrupt and a second packet. -/
theorem C14_rx_mode_stays_witness :
    (∀ q ∈ rxIrqs, ∀ c : Sx, (q.evolve c).regs 0x01 = c.regs 0x01)
    ∧ ((∃ L, regOps (Test07.ISR_PCINT0_vect (sxDev (fun _ => 0)) 2 (mcu0 sx0)).bus
          = regOps (mcu0 sx0).bus ++ L
      ∧ (writesOf L).all isPtrOrFlagsWrite = true
      ∧ (writesOf L).filter isModeWrite = [])
    ∧ (∃ L v, regOps (Test07.main (sxDev (fun _ => 0)) rxIrqs (mcu0 sx0)).bus
          = regOps (mcu0 sx0).bus ++ L
      ∧ ((writesOf L).filter isModeWrite).getLast? = some (0x01, [v])
      ∧ v % 8 = 0b101)
    ∧ (Test07.ISR_PCINT0_vect (sxDev (fun _ => 0)) 2 (mcu0 sx0)).chip.regs 0x01
        = (mcu0 sx0).chip.regs 0x01
    ∧ (Test07.main (sxDev (fun _ => 0)) rxIrqs (mcu0 sx0)).chip.regs 0x01 % 8 = 0b101
    ∧ (Test07.main (sxDev (fun _ => 0)) rxIrqs (mcu0 sx0)).chip.regs 0x01 % 8 ≠ 0) :=
  have henv : ∀ q ∈ rxIrqs, ∀ c : Sx, (q.evolve c).regs 0x01 = c.regs 0x01 := by
    intro q hq c
    simp only [rxIrqs, List.mem_cons, List.mem_singleton, List.not_mem_nil, or_false] at hq
    rcases hq with rfl | rfl | rfl <;> simp [sxReceiveL, setReg]
  ⟨henv, C14_rx_mode_stays (sxDev (fun _ => 0)) (mcu0 sx0) 2 rxIrqs (fun _ => 0) (mcu0 sx0)
    rxIrqs henv⟩

/-! ## C13: the register dump line -/

namespace Avr

theorem hex_getD_mod (i : Nat) : Test07.hex_chars.getD i 0 % 256 = Test07.hex_chars.getD i 0 := by
  apply Nat.mod_eq_of_lt
  by_cases h : i < 16
  · interval_cases i <;> decide
  · rw [List.getD_eq_default _ _ (by simpa [Test07.hex_chars] using h)]
    norm_num

set_option maxRecDepth 100000 in
theorem hex_decode : ∀ x, x < 256 →
    hexVal (Test07.hex_chars.getD ((x &&& 0xF0) >>> 4) 0) = x / 16
    ∧ hexVal (Test07.hex_chars.getD (x &&& 0x0F) 0) = x % 16 := by
  decide

set_option maxRecDepth 100000 in
theorem bin_decode : ∀ v, v < 256 →
    binVal [bitChar v 128, bitChar v 64, bitChar v 32, bitChar v 16,
            bitChar v 8, bitChar v 4, bitChar v 2, bitChar v 1] = v := by
  decide

theorem ite_bit_mod (c : Prop) [Decidable c] :
    (if c then 0x31 else 0x30) % 256 = if c then 0x31 else 0x30 := by
  by_cases h : c <;> simp [h]

theorem store_bit {σ : Type} (c : Prop) [Decidable c] (s : Mcu σ) :
    store_UDR0 (if c then 0x31 else 0x30) s
      = { s with uart := s.uart ++ [if c then 0x31 else 0x30] } := by
  by_cases h : c <;> simp [store_UDR0, h]

end Avr

namespace Test07

/-- The line `lora_print_reg` of the receiver sends to the sink. -/
theorem print_reg_uart {σ : Type} (dev : Slave σ) (reg : Nat) (s : Mcu σ) :
    (lora_print_reg dev reg s).uart = s.uart ++
      [0x52, 0x45, 0x47, 0x20, 0x30, 0x78,
       hex_chars.getD ((reg &&& 0xF0) >>> 4) 0, hex_chars.getD (reg &&& 0x0F) 0,
       0x3D, 0x30, 0x78,
       hex_chars.getD (((lora_read_reg dev reg s).2 &&& 0xF0) >>> 4) 0,
       hex_chars.getD ((lora_read_reg dev reg s).2 &&& 0x0F) 0,
       0x0D, 0x0A] := by
  simp only [lora_print_reg, p_str, uart_tx, store_UDR0, hex_getD_mod, read_reg_uart]
  simp

end Test07

namespace Test08

theorem hex_chars_eq : hex_chars = Test07.hex_chars := rfl

theorem p_hex_digit_uart {σ : Type} (val : Nat) (s : Mcu σ) :
    (p_hex_digit val s).uart = s.uart ++
      [0x30, 0x78, Test07.hex_chars.getD ((val &&& 0xF0) >>> 4) 0,
       Test07.hex_chars.getD (val &&& 0x0F) 0] := by
  simp only [p_hex_digit, p_str, p_str_loop, uart_tx, store_UDR0, hex_chars_eq, hex_getD_mod]
  simp

theorem bitChar_mod (v i : Nat) : bitChar v i % 256 = bitChar v i := by
  unfold bitChar
  split <;> rfl

theorem p_binary_high_step {σ : Type} (val fuel i : Nat) (s : Mcu σ) (h : 8 < i) :
    p_binary_high val (fuel + 1) i s
      = p_binary_high val fuel (i >>> 1) { s with uart := s.uart ++ [bitChar val i] } := by
  have hb := bitChar_mod val i
  unfold bitChar at hb
  simp only [p_binary_high, gt_iff_lt, h, if_true, uart_tx, store_UDR0, hb]
  rfl

theorem p_binary_high_stop {σ : Type} (val fuel i : Nat) (s : Mcu σ) (h : ¬ 8 < i) :
    p_binary_high val (fuel + 1) i s = some (s, i) := by
  simp only [p_binary_high, gt_iff_lt, h, if_false]

theorem p_binary_low_step {σ : Type} (val fuel i : Nat) (s : Mcu σ) (h : i ≠ 0) :
    p_binary_low val (fuel + 1) i s
      = p_binary_low val fuel (i >>> 1) { s with uart := s.uart ++ [bitChar val i] } := by
  have hb := bitChar_mod val i
  unfold bitChar at hb
  simp only [p_binary_low, ne_eq, h, not_false_eq_true, if_true, uart_tx, store_UDR0, hb]
  rfl

theorem p_binary_low_stop {σ : Type} (val fuel : Nat) (s : Mcu σ) :
    p_binary_low val (fuel + 1) 0 s = some s := by
  simp only [p_binary_low, ne_eq, not_true_eq_false, if_false]

theorem p_binary_eq {σ : Type} (val : Nat) (s : Mcu σ) :
    p_binary val s = some { s with uart := s.uart ++
      [bitChar val 128, bitChar val 64, bitChar val 32, bitChar val 16, 0x20,
       bitChar val 8, bitChar val 4, bitChar val 2, bitChar val 1] } := by
  have h1 : p_binary_high val 9 0b10000000 s
      = some ({ s with uart := s.uart ++
          [bitChar val 128, bitChar val 64, bitChar val 32, bitChar val 16] }, 8) := by
    rw [p_binary_high_step val 8 128 s (by norm_num)]
    rw [show 128 >>> 1 = 64 from rfl, p_binary_high_step val 7 64 _ (by norm_num)]
    rw [show 64 >>> 1 = 32 from rfl, p_binary_high_step val 6 32 _ (by norm_num)]
    rw [show 32 >>> 1 = 16 from rfl, p_binary_high_step val 5 16 _ (by norm_num)]
    rw [show 16 >>> 1 = 8 from rfl, p_binary_high_stop val 4 8 _ (by norm_num)]
    simp
  have h2 : ∀ u : Mcu σ, p_binary_low val 9 8 u
      = some { u with uart := u.uart ++
          [bitChar val 8, bitChar val 4, bitChar val 2, bitChar val 1] } := by
    intro u
    rw [p_binary_low_step val 8 8 u (by norm_num)]
    rw [show 8 >>> 1 = 4 from rfl, p_binary_low_step val 7 4 _ (by norm_num)]
    rw [show 4 >>> 1 = 2 from rfl, p_binary_low_step val 6 2 _ (by norm_num)]
    rw [show 2 >>> 1 = 1 from rfl, p_binary_low_step val 5 1 _ (by norm_num)]
    rw [show 1 >>> 1 = 0 from rfl, p_binary_low_stop val 4 _]
    simp
  simp only [p_binary, h1, h2, uart_tx, store_UDR0]
  simp

/-- The line `lora_print_reg` of the transmitter sends to the sink. -/
theorem print_reg_line {σ : Type} (dev : Slave σ) (reg : Nat) (s : Mcu σ) :
    ∃ s1, lora_print_reg dev reg s = some s1 ∧ s1.uart = s.uart ++
      [0x30, 0x78,
       Test07.hex_chars.getD ((reg &&& 0xF0) >>> 4) 0, Test07.hex_chars.getD (reg &&& 0x0F) 0,
       0x3A, 0x20, 0x30, 0x78,
       Test07.hex_chars.getD (((lora_read_reg dev reg s).2 &&& 0xF0) >>> 4) 0,
       Test07.hex_chars.getD ((lora_read_reg dev reg s).2 &&& 0x0F) 0,
       0x20, 0x3D, 0x20,
       bitChar (lora_read_reg dev reg s).2 128, bitChar (lora_read_reg dev reg s).2 64,
       bitChar (lora_read_reg dev reg s).2 32, bitChar (lora_read_reg dev reg s).2 16,
       0x20,
       bitChar (lora_read_reg dev reg s).2 8, bitChar (lora_read_reg dev reg s).2 4,
       bitChar (lora_read_reg dev reg s).2 2, bitChar (lora_read_reg dev reg s).2 1,
       0x0D, 0x0A] := by
  simp only [lora_print_reg, p_binary_eq]
  refine ⟨_, rfl, ?_⟩
  simp only [p_str, p_str_loop, uart_tx, store_UDR0, p_hex_digit_uart]
  simp [read_reg_eq, Test07.read_reg_uart]

end Test08

/-- C13 (as stated, refuted): the line the receiver's `lora_print_reg` writes for
register 0x42 holding 0xFF is "REG 0x42=0xFF" followed by CR LF; it contains no
character '1', although all eight bits of the value are 1. -/
theorem C13_binary_rendering_counterexample :
    (Test07.lora_print_reg (regFileDev (fun _ => 0)) 0x42 (mcu0 (regFileConst 0xFF))).uart
        = [0x52, 0x45, 0x47, 0x20, 0x30, 0x78, 0x34, 0x32, 0x3D, 0x30, 0x78, 0x46, 0x46,
           0x0D, 0x0A]
    ∧ List.count 0x31
        (Test07.lora_print_reg (regFileDev (fun _ => 0)) 0x42 (mcu0 (regFileConst 0xFF))).uart
        = 0
    ∧ [bitChar 0xFF 128, bitChar 0xFF 64, bitChar 0xFF 32, bitChar 0xFF 16,
       bitChar 0xFF 8, bitChar 0xFF 4, bitChar 0xFF 2, bitChar 0xFF 1]
        = [0x31, 0x31, 0x31, 0x31, 0x31, 0x31, 0x31, 0x31] := by
  decide

/-- C13 (amended): for every 8-bit register address `reg`, with `v` the value
read from the radio, the transmitter's `lora_print_reg` returns and writes the
line "0x" RR ": 0x" VV " = " bbbb " " bbbb CR LF, where RR and VV are the two
uppercase hexadecimal digits of `reg` and of `v`, high nibble first, and the
eight characters b are the bits of `v` as '0'/'1', most significant first, with
one space between the two nibbles; these eight characters decode back to `v`.
The receiver's `lora_print_reg` writes the line "REG 0x" RR "=0x" VV CR LF, with
the same hexadecimal digits and no binary rendering. -/
theorem C13_print_reg {σ : Type} (dev : Slave σ) (reg : Nat) (s : Mcu σ) (hreg : reg < 256) :
    (∃ s1, Test08.lora_print_reg dev reg s = some s1 ∧ s1.uart = s.uart ++
      [0x30, 0x78,
       Test07.hex_chars.getD ((reg &&& 0xF0) >>> 4) 0, Test07.hex_chars.getD (reg &&& 0x0F) 0,
       0x3A, 0x20, 0x30, 0x78,
       Test07.hex_chars.getD (((Test07.lora_read_reg dev reg s).2 &&& 0xF0) >>> 4) 0,
       Test07.hex_chars.getD ((Test07.lora_read_reg dev reg s).2 &&& 0x0F) 0,
       0x20, 0x3D, 0x20,
       bitChar (Test07.lora_read_reg dev reg s).2 128,
       bitChar (Test07.lora_read_reg dev reg s).2 64,
       bitChar (Test07.lora_read_reg dev reg s).2 32,
       bitChar (Test07.lora_read_reg dev reg s).2 16,
       0x20,
       bitChar (Test07.lora_read_reg dev reg s).2 8,
       bitChar (Test07.lora_read_reg dev reg s).2 4,
       bitChar (Test07.lora_read_reg dev reg s).2 2,
       bitChar (Test07.lora_read_reg dev reg s).2 1,
       0x0D, 0x0A])
    ∧ (Test07.lora_print_reg dev reg s).uart = s.uart ++
      [0x52, 0x45, 0x47, 0x20, 0x30, 0x78,
       Test07.hex_chars.getD ((reg &&& 0xF0) >>> 4) 0, Test07.hex_chars.getD (reg &&& 0x0F) 0,
       0x3D, 0x30, 0x78,
       Test07.hex_chars.getD (((Test07.lora_read_reg dev reg s).2 &&& 0xF0) >>> 4) 0,
       Test07.hex_chars.getD ((Test07.lora_read_reg dev reg s).2 &&& 0x0F) 0,
       0x0D, 0x0A]
    ∧ hexVal (Test07.hex_chars.getD ((reg &&& 0xF0) >>> 4) 0) = reg / 16
    ∧ hexVal (Test07.hex_chars.getD (reg &&& 0x0F) 0) = reg % 16
    ∧ hexVal (Test07.hex_chars.getD (((Test07.lora_read_reg dev reg s).2 &&& 0xF0) >>> 4) 0)
        = (Test07.lora_read_reg dev reg s).2 / 16
    ∧ hexVal (Test07.hex_chars.getD ((Test07.lora_read_reg dev reg s).2 &&& 0x0F) 0)
        = (Test07.lora_read_reg dev reg s).2 % 16
    ∧ binVal [bitChar (Test07.lora_read_reg dev reg s).2 128,
              bitChar (Test07.lora_read_reg dev reg s).2 64,
              bitChar (Test07.lora_read_reg dev reg s).2 32,
              bitChar (Test07.lora_read_reg dev reg s).2 16,
              bitChar (Test07.lora_read_reg dev reg s).2 8,
              bitChar (Test07.lora_read_reg dev reg s).2 4,
              bitChar (Test07.lora_read_reg dev reg s).2 2,
              bitChar (Test07.lora_read_reg dev reg s).2 1]
        = (Test07.lora_read_reg dev reg s).2 := by
  have hv := Test07.read_reg_lt dev reg s
  have h8 := Test08.print_reg_line dev reg s
  rw [Test08.read_reg_eq] at h8
  exact ⟨h8, Test07.print_reg_uart dev reg s, (hex_decode reg hreg).1, (hex_decode reg hreg).2,
    (hex_decode _ hv).1, (hex_decode _ hv).2, bin_decode _ hv⟩

/-- C13 witness: the version register 0x42 of a register file whose registers
all hold 0xA5. -/
theorem C13_print_reg_witness :
    0x42 < 256
    ∧ ((∃ s1, Test08.lora_print_reg (regFileDev (fun _ => 0)) 0x42 (mcu0 (regFileConst 0xA5)) = some s1 ∧ s1.uart = (mcu0 (regFileConst 0xA5)).uart ++
      [0x30, 0x78,
       Test07.hex_chars.getD ((0x42 &&& 0xF0) >>> 4) 0, Test07.hex_chars.getD (0x42 &&& 0x0F) 0,
       0x3A, 0x20, 0x30, 0x78,
       Test07.hex_chars.getD (((Test07.lora_read_reg (regFileDev (fun _ => 0)) 0x42 (mcu0 (regFileConst 0xA5))).2 &&& 0xF0) >>> 4) 0,
       Test07.hex_chars.getD ((Test07.lora_read_reg (regFileDev (fun _ => 0)) 0x42 (mcu0 (regFileConst 0xA5))).2 &&& 0x0F) 0,
       0x20, 0x3D, 0x20,
       bitChar (Test07.lora_read_reg (regFileDev (fun _ => 0)) 0x42 (mcu0 (regFileConst 0xA5))).2 128,
       bitChar (Test07.lora_read_reg (regFileDev (fun _ => 0)) 0x42 (mcu0 (regFileConst 0xA5))).2 64,
       bitChar (Test07.lora_read_reg (regFileDev (fun _ => 0)) 0x42 (mcu0 (regFileConst 0xA5))).2 32,
       bitChar (Test07.lora_read_reg (regFileDev (fun _ => 0)) 0x42 (mcu0 (regFileConst 0xA5))).2 16,
       0x20,
       bitChar (Test07.lora_read_reg (regFileDev (fun _ => 0)) 0x42 (mcu0 (regFileConst 0xA5))).2 8,
       bitChar (Test07.lora_read_reg (regFileDev (fun _ => 0)) 0x42 (mcu0 (regFileConst 0xA5))).2 4,
       bitChar (Test07.lora_read_reg (regFileDev (fun _ => 0)) 0x42 (mcu0 (regFileConst 0xA5))).2 2,
       bitChar (Test07.lora_read_reg (regFileDev (fun _ => 0)) 0x42 (mcu0 (regFileConst 0xA5))).2 1,
       0x0D, 0x0A])
    ∧ (Test07.lora_print_reg (regFileDev (fun _ => 0)) 0x42 (mcu0 (regFileConst 0xA5))).uart = (mcu0 (regFileConst 0xA5)).uart ++
      [0x52, 0x45, 0x47, 0x20, 0x30, 0x78,
       Test07.hex_chars.getD ((0x42 &&& 0xF0) >>> 4) 0, Test07.hex_chars.getD (0x42 &&& 0x0F) 0,
       0x3D, 0x30, 0x78,
       Test07.hex_chars.getD (((Test07.lora_read_reg (regFileDev (fun _ => 0)) 0x42 (mcu0 (regFileConst 0xA5))).2 &&& 0xF0) >>> 4) 0,
       Test07.hex_chars.getD ((Test07.lora_read_reg (regFileDev (fun _ => 0)) 0x42 (mcu0 (regFileConst 0xA5))).2 &&& 0x0F) 0,
       0x0D, 0x0A]
    ∧ hexVal (Test07.hex_chars.getD ((0x42 &&& 0xF0) >>> 4) 0) = 0x42 / 16
    ∧ hexVal (Test07.hex_chars.getD (0x42 &&& 0x0F) 0) = 0x42 % 16
    ∧ hexVal (Test07.hex_chars.getD (((Test07.lora_read_reg (regFileDev (fun _ => 0)) 0x42 (mcu0 (regFileConst 0xA5))).2 &&& 0xF0) >>> 4) 0)
        = (Test07.lora_read_reg (regFileDev (fun _ => 0)) 0x42 (mcu0 (regFileConst 0xA5))).2 / 16
    ∧ hexVal (Test07.hex_chars.getD ((Test07.lora_read_reg (regFileDev (fun _ => 0)) 0x42 (mcu0 (regFileConst 0xA5))).2 &&& 0x0F) 0)
        = (Test07.lora_read_reg (regFileDev (fun _ => 0)) 0x42 (mcu0 (regFileConst 0xA5))).2 % 16
    ∧ binVal [bitChar (Test07.lora_read_reg (regFileDev (fun _ => 0)) 0x42 (mcu0 (regFileConst 0xA5))).2 128,
              bitChar (Test07.lora_read_reg (regFileDev (fun _ => 0)) 0x42 (mcu0 (regFileConst 0xA5))).2 64,
              bitChar (Test07.lora_read_reg (regFileDev (fun _ => 0)) 0x42 (mcu0 (regFileConst 0xA5))).2 32,
              bitChar (Test07.lora_read_reg (regFileDev (fun _ => 0)) 0x42 (mcu0 (regFileConst 0xA5))).2 16,
              bitChar (Test07.lora_read_reg (regFileDev (fun _ => 0)) 0x42 (mcu0 (regFileConst 0xA5))).2 8,
              bitChar (Test07.lora_read_reg (regFileDev (fun _ => 0)) 0x42 (mcu0 (regFileConst 0xA5))).2 4,
              bitChar (Test07.lora_read_reg (regFileDev (fun _ => 0)) 0x42 (mcu0 (regFileConst 0xA5))).2 2,
              bitChar (Test07.lora_read_reg (regFileDev (fun _ => 0)) 0x42 (mcu0 (regFileConst 0xA5))).2 1]
        = (Test07.lora_read_reg (regFileDev (fun _ => 0)) 0x42 (mcu0 (regFileConst 0xA5))).2) :=
  ⟨by decide, C13_print_reg (regFileDev (fun _ => 0)) 0x42 (mcu0 (regFileConst 0xA5))
    (by decide)⟩

/-! ## C15: the seconds counter of test06.c -/

namespace Test06

theorem toDigits_length (k : Nat) : ∀ n, (toDigits k n).length = k := by
  induction k with
  | zero => intro n; rfl
  | succ k ih => intro n; simp [toDigits, ih]

theorem toDigits_range (k : Nat) : ∀ n, ∀ c ∈ toDigits k n, 0x30 ≤ c ∧ c ≤ 0x39 := by
  induction k with
  | zero => intro n c hc; simp [toDigits] at hc
  | succ k ih =>
    intro n c hc
    simp only [toDigits, List.mem_append, List.mem_singleton] at hc
    rcases hc with hc | hc
    · exact ih _ c hc
    · subst hc
      have := Nat.mod_lt n (show 0 < 10 by norm_num)
      omega

/-- The carry loop on a buffer whose first `k` bytes are the digits of `n`. -/
theorem update_val_loop_digits (signed : Bool) (k : Nat) :
    ∀ (n : Nat) (back : List Nat), n < 10 ^ k →
      update_val_loop signed k (toDigits k n ++ back)
        = toDigits k ((n + 1) % 10 ^ k) ++ back := by
  induction k with
  | zero =>
    intro n back _
    simp [update_val_loop, toDigits]
  | succ k ih =>
    intro n back hn
    have hlen := toDigits_length k (n / 10)
    have hd : n % 10 < 10 := Nat.mod_lt n (by norm_num)
    have hq : n / 10 < 10 ^ k := by
      rw [Nat.div_lt_iff_lt_mul (by norm_num)]
      rw [pow_succ] at hn
      exact hn
    have hget : ∀ x : Nat, (toDigits k (n / 10) ++ x :: back).getD k 0 = x := by
      intro x
      rw [List.getD_append_right _ _ _ _ (by omega), hlen]
      simp
    have hset : ∀ x y : Nat, (toDigits k (n / 10) ++ x :: back).set k y
        = toDigits k (n / 10) ++ y :: back := by
      intro x y
      rw [List.set_append_right _ _ (by omega), hlen]
      simp
    have hc : (0x30 + n % 10 + 1) % 256 = 0x31 + n % 10 := by omega
    simp only [update_val_loop, toDigits, List.append_assoc, List.singleton_append, hget, hset,
      hc]
    by_cases h9 : n % 10 = 9
    · have hle : char_le_9 signed (0x31 + n % 10) = false := by
        simp [char_le_9, h9]
      simp only [hle, Bool.false_eq_true, if_false]
      rw [ih (n / 10) (0x30 :: back) hq]
      have hn1 : n + 1 = 10 * (n / 10 + 1) := by omega
      have hmod : (n + 1) % 10 ^ (k + 1) = 10 * ((n / 10 + 1) % 10 ^ k) := by
        rw [hn1, pow_succ, Nat.mul_comm (10 ^ k) 10, Nat.mul_mod_mul_left]
      rw [hmod, Nat.mul_div_cancel_left _ (by norm_num : 0 < 10), Nat.mul_mod_right]
    · have hle : char_le_9 signed (0x31 + n % 10) = true := by
        have : 0x31 + n % 10 ≤ 0x39 := by omega
        simp [char_le_9, this]
      simp only [hle, if_true]
      have hlt : n + 1 < 10 ^ (k + 1) := by
        have h10 : 10 ^ (k + 1) % 10 = 0 := by
          rw [pow_succ]; exact Nat.mul_mod_left _ _
        omega
      rw [Nat.mod_eq_of_lt hlt]
      have h1 : (n + 1) / 10 = n / 10 := by omega
      have h2 : (n + 1) % 10 = n % 10 + 1 := by omega
      rw [h1, h2]
      have h3 : 0x30 + (n % 10 + 1) = 0x31 + n % 10 := by omega
      rw [h3]

theorem digitsVal_toDigits (k : Nat) : ∀ n, digitsVal (toDigits k n) = n % 10 ^ k := by
  induction k with
  | zero => intro n; simp [toDigits, digitsVal, Nat.mod_one]
  | succ k ih =>
    intro n
    have h := ih (n / 10)
    simp only [digitsVal] at h
    simp only [toDigits, digitsVal, List.foldl_append, List.foldl_cons, List.foldl_nil, h]
    rw [pow_succ, Nat.mul_comm (10 ^ k) 10, Nat.mod_mul]
    omega

end Test06

/-- C15: whether `char` is signed or not, if `val` holds the seven-digit
zero-padded decimal representation of `n < 10^7` followed by the terminating 0,
then after `update_val` it holds the seven-digit zero-padded representation of
`(n + 1) mod 10^7` followed by the same terminator; every one of the seven
characters is in '0'..'9', and 9999999 wraps to 0000000. -/
theorem C15_update_val (signed : Bool) (n : Nat) (hn : n < 10 ^ 7) :
    Test06.update_val signed (Test06.toDigits 7 n ++ [0])
        = Test06.toDigits 7 ((n + 1) % 10 ^ 7) ++ [0]
    ∧ (Test06.toDigits 7 ((n + 1) % 10 ^ 7)).length = 7
    ∧ Test06.digitsVal (Test06.toDigits 7 n) = n
    ∧ Test06.digitsVal (Test06.toDigits 7 ((n + 1) % 10 ^ 7)) = (n + 1) % 10 ^ 7
    ∧ Test06.toDigits 7 1234567 = [0x31, 0x32, 0x33, 0x34, 0x35, 0x36, 0x37]
    ∧ (∀ c ∈ Test06.toDigits 7 ((n + 1) % 10 ^ 7), 0x30 ≤ c ∧ c ≤ 0x39)
    ∧ (Test06.update_val signed (Test06.toDigits 7 n ++ [0])).getD 7 1 = 0
    ∧ Test06.update_val signed [0x39, 0x39, 0x39, 0x39, 0x39, 0x39, 0x39, 0]
        = [0x30, 0x30, 0x30, 0x30, 0x30, 0x30, 0x30, 0]
    ∧ Test06.val = Test06.toDigits 7 0 ++ [0] := by
  have h := Test06.update_val_loop_digits signed 7 n [0] hn
  have hu : Test06.update_val signed (Test06.toDigits 7 n ++ [0])
      = Test06.toDigits 7 ((n + 1) % 10 ^ 7) ++ [0] := h
  have hd1 : Test06.digitsVal (Test06.toDigits 7 n) = n := by
    rw [Test06.digitsVal_toDigits, Nat.mod_eq_of_lt hn]
  have hd2 : Test06.digitsVal (Test06.toDigits 7 ((n + 1) % 10 ^ 7)) = (n + 1) % 10 ^ 7 := by
    rw [Test06.digitsVal_toDigits, Nat.mod_mod]
  refine ⟨hu, Test06.toDigits_length 7 _, hd1, hd2, by decide, Test06.toDigits_range 7 _, ?_, ?_,
    by decide⟩
  · rw [hu, List.getD_append_right _ _ _ _ (by rw [Test06.toDigits_length]),
      Test06.toDigits_length]
    rfl
  · cases signed <;> decide

/-- C15 witness: the counter at 0001299 becomes 0001300. -/
theorem C15_update_val_witness :
    1299 < 10 ^ 7
    ∧ (Test06.update_val true (Test06.toDigits 7 1299 ++ [0])
        = Test06.toDigits 7 ((1299 + 1) % 10 ^ 7) ++ [0]
    ∧ (Test06.toDigits 7 ((1299 + 1) % 10 ^ 7)).length = 7
    ∧ Test06.digitsVal (Test06.toDigits 7 1299) = 1299
    ∧ Test06.digitsVal (Test06.toDigits 7 ((1299 + 1) % 10 ^ 7)) = (1299 + 1) % 10 ^ 7
    ∧ Test06.toDigits 7 1234567 = [0x31, 0x32, 0x33, 0x34, 0x35, 0x36, 0x37]
    ∧ (∀ c ∈ Test06.toDigits 7 ((1299 + 1) % 10 ^ 7), 0x30 ≤ c ∧ c ≤ 0x39)
    ∧ (Test06.update_val true (Test06.toDigits 7 1299 ++ [0])).getD 7 1 = 0
    ∧ Test06.update_val true [0x39, 0x39, 0x39, 0x39, 0x39, 0x39, 0x39, 0]
        = [0x30, 0x30, 0x30, 0x30, 0x30, 0x30, 0x30, 0]
    ∧ Test06.val = Test06.toDigits 7 0 ++ [0]) :=
  ⟨by norm_num, C15_update_val true 1299 (by norm_num)⟩
